import Mathlib

/-!
# trevor: the request handler of `server.go`

A shallow embedding of `processHandler`, `addCORS` and the part of `server.Run`
that builds the route's handler, together with the library operations they call
(`strings.TrimSpace`, `utf8.RuneCountInString`, `json.Unmarshal` into a
`map[string]string`, `json.Marshal` of a `map[string]interface{}`,
`http.Header.Get/Set`, `http.ResponseWriter`, `http.NotFound`).

Conventions of the embedding:

* Go strings are Lean `String`s (sequences of Unicode code points).
* A body is represented by its JSON syntax tree: what `ioutil.ReadAll` yields is
  `none` when the bytes are not a well-formed JSON text and `some v` otherwise;
  a marshalled body is the syntax tree that was written.
* A Go value of type `interface{}` is represented by what `json.Marshal` makes of
  it: its JSON encoding, or the refusal to encode it.
* Mutable state is passed explicitly: the variable `errorText` captured by the
  closure that `processHandler` returns, and the state of the engine. Both are
  shared by all invocations of the handler; `HandlerFunc.callAmong` runs one
  invocation while others run their lines 88 to 113 between its lines 113 and 115.
* Every call of `Engine.Process` is logged, in order, in the `calls` component.
* `ResponseWriter.wire` holds the header lines that `net/http` writes for the header
  map of the handler, `ResponseWriter.sent` the same lines with the values as written.
-/

set_option linter.dupNamespace false

namespace Trevor

/-! ## JSON values -/

/-- JSON syntax trees. A number is kept as a decimal `mantissa * 10 ^ exponent`. -/
inductive JSON where
  | null : JSON
  | bool (b : Bool) : JSON
  | num (mantissa exponent : Int) : JSON
  | str (s : String) : JSON
  | arr (items : List JSON) : JSON
  | obj (members : List (String × JSON)) : JSON

/-- A Go value of type `interface{}` as `json.Marshal` sees it: a value that encodes
to the JSON text `v`, or a value that `json.Marshal` refuses (a NaN or infinite
float, a channel, a func, or a value that contains one). -/
inductive Value where
  | encodable (v : JSON) : Value
  | unsupported : Value

/-! ## `unicode`, `strings`, `utf8` -/

/-- The predicate `unicode.IsSpace`: the Latin-1 spaces `\t \n \v \f \r`, space,
U+0085, U+00A0, and the other code points with the White_Space property. -/
def isSpace (c : Char) : Bool :=
  let n := c.toNat
  (0x09 ≤ n && n ≤ 0x0D) || n == 0x20 || n == 0x85 || n == 0xA0 || n == 0x1680 ||
  (0x2000 ≤ n && n ≤ 0x200A) || n == 0x2028 || n == 0x2029 || n == 0x202F ||
  n == 0x205F || n == 0x3000

/-- The function `strings.TrimSpace`: drop leading, then trailing, white space. -/
def TrimSpace (s : String) : String :=
  String.mk (((s.data.dropWhile isSpace).reverse.dropWhile isSpace).reverse)

/-- The function `utf8.RuneCountInString`, on a string of code points. -/
def RuneCountInString (s : String) : Nat := s.data.length

/-! ## `net/textproto`, `net/http` headers -/

/-- The token bytes of RFC 7230 (`validHeaderFieldByte` of `net/textproto`). -/
def validHeaderFieldByte (c : Char) : Bool :=
  let n := c.toNat
  (0x30 ≤ n && n ≤ 0x39) || (0x41 ≤ n && n ≤ 0x5A) || (0x61 ≤ n && n ≤ 0x7A) ||
  n == 0x21 || (0x23 ≤ n && n ≤ 0x27) || n == 0x2A || n == 0x2B || n == 0x2D ||
  n == 0x2E || n == 0x5E || n == 0x5F || n == 0x60 || n == 0x7C || n == 0x7E

/-- The canonicalising loop of `canonicalMIMEHeaderKey`: upper case at the start and
after each dash, lower case elsewhere. -/
def canonicalLoop : Bool → List Char → List Char
  | _, [] => []
  | upper, c :: cs =>
    let n := c.toNat
    let c1 : Char :=
      if upper && 0x61 ≤ n && n ≤ 0x7A then Char.ofNat (n - 32)
      else if !upper && 0x41 ≤ n && n ≤ 0x5A then Char.ofNat (n + 32)
      else c
    c1 :: canonicalLoop (c1.toNat == 0x2D) cs

/-- The function `textproto.CanonicalMIMEHeaderKey`: a key with a byte that is not a
token byte is returned unchanged, any other key is canonicalised. -/
def CanonicalMIMEHeaderKey (s : String) : String :=
  if s.data.all validHeaderFieldByte then String.mk (canonicalLoop true s.data) else s

/-- The type `http.Header`, a map from canonical keys to lists of values, kept as an
association list with at most one entry per key. -/
abbrev Header := List (String × List String)

/-- The entry `h[key]` of the map under a key taken as it is. -/
def Header.entry (h : Header) (key : String) : List String :=
  match h.find? (fun p => p.1 == key) with
  | some p => p.2
  | none => []

/-- The method `Header.Values`: all values of the canonicalised key. -/
def Header.Values (h : Header) (key : String) : List String :=
  Header.entry h (CanonicalMIMEHeaderKey key)

/-- The method `Header.Get`: the first value of the canonicalised key, or `""`. -/
def Header.Get (h : Header) (key : String) : String :=
  match Header.Values h key with
  | v :: _ => v
  | [] => ""

/-- The method `Header.Set`: `h[canonical key] = []string{value}`. -/
def Header.Set (h : Header) (key value : String) : Header :=
  (CanonicalMIMEHeaderKey key, [value]) ::
    h.filter (fun p => !(p.1 == CanonicalMIMEHeaderKey key))

/-- The function `httpguts.ValidHeaderFieldName`: a non-empty run of token bytes. -/
def ValidHeaderFieldName (s : String) : Bool :=
  !s.data.isEmpty && s.data.all validHeaderFieldByte

/-- The value of a run of decimal digits, `none` when another byte occurs. -/
def digitsValue : List Char → Nat → Option Nat
  | [], acc => some acc
  | c :: cs, acc =>
    if 0x30 ≤ c.toNat && c.toNat ≤ 0x39 then digitsValue cs (acc * 10 + (c.toNat - 0x30))
    else none

/-- The test of `response.WriteHeader` on a `Content-Length` value:
`strconv.ParseInt(cl, 10, 64)` succeeds with a result that is not negative. -/
def validContentLength (cl : String) : Bool :=
  match cl.data with
  | [] => false
  | c :: cs =>
    if c.toNat == 0x2B then
      !cs.isEmpty && (match digitsValue cs 0 with
        | some n => n < 2 ^ 63
        | none => false)
    else if c.toNat == 0x2D then
      !cs.isEmpty && (match digitsValue cs 0 with
        | some n => n == 0
        | none => false)
    else
      (match digitsValue (c :: cs) 0 with
        | some n => n < 2 ^ 63
        | none => false)

/-- Whether `net/http` writes a header line just as the handler set it. A line is not
written when its name is not a valid field name (`Header.WriteSubset` skips it) or
when it is a `Content-Length` that does not parse (`response.WriteHeader` and the
chunk writer delete it). The lines `Transfer-Encoding`, `Connection` and `Trailer`
are left out as well: `net/http` gives these names a meaning of its own, and what the
response carries under them is decided by it from the protocol version and the
state of the connection. -/
def sendsLine (p : String × List String) : Bool :=
  ValidHeaderFieldName p.1 && !(p.1 == "Transfer-Encoding") && !(p.1 == "Connection") &&
  !(p.1 == "Trailer") &&
  (!(p.1 == "Content-Length") ||
    validContentLength (match p.2 with
      | v :: _ => v
      | [] => ""))

/-- The bytes that `textproto.TrimString` trims: space, tab, line feed, carriage
return. -/
def isASCIISpace (c : Char) : Bool :=
  c.toNat == 0x20 || c.toNat == 0x09 || c.toNat == 0x0A || c.toNat == 0x0D

/-- A header value as `Header.WriteSubset` writes it: line feeds and carriage returns
replaced by spaces (`headerNewlineToSpace`), then trimmed (`textproto.TrimString`). -/
def sanitizeValue (v : String) : String :=
  String.mk ((((v.data.map (fun c =>
    if c.toNat == 0x0A || c.toNat == 0x0D then Char.ofNat 0x20 else c)).dropWhile
      isASCIISpace).reverse.dropWhile isASCIISpace).reverse)

/-- Whether a list of characters is empty or starts with a character other than a
space. -/
def startsUnspaced : List Char → Bool
  | [] => true
  | c :: _ => !(c.toNat == 0x20)

/-- A plain header value: no control character (so no line break and no tab) and no
space at either end. Such a value is written as it is, by HTTP/1 and HTTP/2 alike. -/
def plainValue (v : String) : Bool :=
  v.data.all (fun c => 0x20 ≤ c.toNat && !(c.toNat == 0x7F)) &&
  startsUnspaced v.data && startsUnspaced v.data.reverse

/-! ## `encoding/json` -/

/-- The errors of `json.Unmarshal`: the text is not well-formed JSON, or a value does
not fit the Go type it is decoded into. -/
inductive UnmarshalError where
  | SyntaxError : UnmarshalError
  | UnmarshalTypeError : UnmarshalError

/-- The Go type `map[string]string`; the nil map is the empty list. -/
abbrev StringMap := List (String × String)

/-- The assignment `m[key] = value`. -/
def StringMap.set (m : StringMap) (key value : String) : StringMap :=
  (key, value) :: m.filter (fun p => !(p.1 == key))

/-- The comma-ok index expression `text, ok := m[key]`. -/
def StringMap.index (m : StringMap) (key : String) : String × Bool :=
  match m.find? (fun p => p.1 == key) with
  | some p => (p.2, true)
  | none => ("", false)

/-- Decoding one JSON value into a fresh `string` map element: a string is stored,
`null` leaves the zero value, anything else leaves the zero value and records an
`UnmarshalTypeError`. -/
def decodeElem : JSON → String × Option UnmarshalError
  | JSON.str s => (s, none)
  | JSON.null => ("", none)
  | _ => ("", some UnmarshalError.UnmarshalTypeError)

/-- Decoding the members of a JSON object into the map, left to right (a later
duplicate key overwrites an earlier one); the first recorded error is kept and
decoding goes on. -/
def decodeMembers : List (String × JSON) → StringMap → Option UnmarshalError →
    StringMap × Option UnmarshalError
  | [], m, err => (m, err)
  | (k, v) :: rest, m, err =>
    decodeMembers rest (m.set k (decodeElem v).1)
      (match err with
       | some e => some e
       | none => (decodeElem v).2)

/-- The call `json.Unmarshal(content, &jsonInput)` for `jsonInput map[string]string`
that is nil before the call: the map after the call and the error returned. -/
def Unmarshal (content : Option JSON) : StringMap × Option UnmarshalError :=
  match content with
  | none => ([], some UnmarshalError.SyntaxError)
  | some JSON.null => ([], none)
  | some (JSON.obj members) => decodeMembers members [] none
  | some _ => ([], some UnmarshalError.UnmarshalTypeError)

/-- Byte-wise order of strings, the order in which `json.Marshal` writes map keys. -/
def keyLT : List Char → List Char → Bool
  | [], [] => false
  | [], _ :: _ => true
  | _ :: _, [] => false
  | a :: as, b :: bs => a.toNat < b.toNat || (a.toNat == b.toNat && keyLT as bs)

/-- Insertion of one member into a key-sorted member list. -/
def insertMember (p : String × JSON) : List (String × JSON) → List (String × JSON)
  | [] => [p]
  | q :: qs => if keyLT p.1.data q.1.data then p :: q :: qs else q :: insertMember p qs

/-- The error of `json.Marshal`: a value it does not encode. -/
inductive MarshalError where
  | UnsupportedValue : MarshalError

/-- The encodings of the members of a map, in key order; `none` when one of the
values is refused. -/
def encodeMembers : List (String × Value) → Option (List (String × JSON))
  | [] => some []
  | (k, Value.encodable v) :: rest =>
    (encodeMembers rest).map (fun members => insertMember (k, v) members)
  | (_, Value.unsupported) :: _ => none

/-- The call `json.Marshal(response)` for `response map[string]interface{}`: the bytes
and the error. The nil map gives `null`, a map whose values all encode gives the
object with the members in key order, any other map gives no bytes and an error. -/
def Marshal (response : Option (List (String × Value))) : Option JSON × Option MarshalError :=
  match response with
  | none => (some JSON.null, none)
  | some members =>
    match encodeMembers members with
    | some encoded => (some (JSON.obj encoded), none)
    | none => (none, some MarshalError.UnsupportedValue)

/-! ## `net/http` requests and response writers -/

namespace http

/-- The fields of `http.Request` the handler reads. `Body` is what
`ioutil.ReadAll(r.Body)` yields. -/
structure Request where
  Method : String
  Header : Header
  Body : Option JSON

end http

/-- What one `Write` puts on the wire: a marshalled JSON value or plain text. -/
inductive Chunk where
  | json (v : JSON) : Chunk
  | text (s : String) : Chunk

/-- The state behind an `http.ResponseWriter`: the live map `w.Header()`, the status
written (`0` before `WriteHeader`), the header lines written with it, the body
written. -/
structure ResponseWriter where
  header : Header
  status : Nat
  wire : Header
  body : List Chunk

/-- The writer a request is served with. -/
def ResponseWriter.fresh : ResponseWriter :=
  { header := [], status := 0, wire := [], body := [] }

/-- The statement `w.Header().Set(key, value)`. -/
def ResponseWriter.HeaderSet (w : ResponseWriter) (key value : String) : ResponseWriter :=
  { w with header := w.header.Set key value }

/-- The method `WriteHeader`: the first call fixes the status and, of the header as it
stands, the lines that `net/http` writes; a later call is ignored. -/
def ResponseWriter.WriteHeader (w : ResponseWriter) (code : Nat) : ResponseWriter :=
  if w.status = 0 then { w with status := code, wire := w.header.filter sendsLine } else w

/-- The method `Write`: sends status 200 first when none was written, then the bytes;
`none` stands for the empty (or nil) byte slice, which adds nothing to the body. -/
def ResponseWriter.Write (w : ResponseWriter) (c : Option Chunk) : ResponseWriter :=
  let w1 := w.WriteHeader 200
  { w1 with body := w1.body ++ c.toList }

/-- The header lines of the response as they are written: those of `wire`, each value
rewritten by `sanitizeValue`. -/
def ResponseWriter.sent (w : ResponseWriter) : Header :=
  w.wire.map (fun p => (p.1, p.2.map sanitizeValue))

namespace http

/-- The function `http.Error`. -/
def Error (w : ResponseWriter) (error : String) (code : Nat) : ResponseWriter :=
  let w := w.HeaderSet "Content-Type" "text/plain; charset=utf-8"
  let w := w.HeaderSet "X-Content-Type-Options" "nosniff"
  let w := w.WriteHeader code
  w.Write (some (Chunk.text (error ++ "\n")))

/-- The function `http.NotFound`. -/
def NotFound (w : ResponseWriter) (_r : Request) : ResponseWriter :=
  Error w "404 page not found" 404

end http

/-! ## The collaborators of the handler -/

/-- Modelled from the spec: the type `trevor.Request` handed to the engine is declared
outside `server.go`. It holds the text, the session token (the field `Token` that
line 94 assigns) and a reference to the transport request. -/
structure Request where
  Text : String
  Token : String
  Request : http.Request

/-- Modelled from the spec: `NewRequest` is not part of `server.go`. It builds the
Request with the given text, an empty token and a reference to the transport
request. -/
def NewRequest (text : String) (r : http.Request) : Request :=
  { Text := text, Token := "", Request := r }

/-- The interface `MemoryService` (declared outside `server.go`) as far as the handler
uses it: the value its `TokenHeader()` method returns. -/
structure MemoryService where
  TokenHeader : String

/-- What `Engine.Process` returns: `dataType`, `data` (any Go value), and `err` as the
text of `err.Error()` (`none` for a nil error); `req` is the Request as it stands on
return, since the engine receives a pointer to it, and `state` the state the call
leaves the engine in. -/
structure Processed (σ : Type) where
  state : σ
  req : Request
  dataType : String
  data : Value
  err : Option String

/-- The interface `Engine` (declared outside `server.go`) as far as the handler uses
it, over an engine state `σ`:
`memory` is what `Memory()` returns (`none` for nil, the same service at every call)
and `process` is the effect of `Process` in a given state. -/
structure Engine (σ : Type) where
  state : σ
  memory : Option MemoryService
  process : σ → Request → Processed σ

/-- One call `s.engine.Process(req)`: the engine afterwards and what the call
returns. -/
def Engine.Process {σ : Type} (e : Engine σ) (req : Request) : Engine σ × Processed σ :=
  ({ e with state := (e.process e.state req).state }, e.process e.state req)

/-- The fields of `Config` that `server.Run` reads to build the handler. -/
structure Config where
  Endpoint : String
  InputFieldName : String
  CORSOrigin : String

/-- The type `server`. -/
structure server (σ : Type) where
  engine : Engine σ
  config : Config

/-! ## `server.go` -/

/-- The function `addCORS`. -/
def addCORS (r : http.Request) (w : ResponseWriter) (origin : String) : ResponseWriter :=
  let w := w.HeaderSet "Access-Control-Allow-Origin" origin
  let w := w.HeaderSet "Access-Control-Allow-Headers"
    (r.Header.Get "Access-Control-Request-Headers")
  w.HeaderSet "Access-Control-Allow-Method" "OPTIONS,POST"

/-- The func value that `processHandler` returns, as the variables it captures.
`errorText` is assigned by the func body and `s` points to the server whose engine
`Process` may change, so both persist from one call to the next and are shared by
the invocations that run at the same time. -/
structure HandlerFunc (σ : Type) where
  inputName : String
  CORSOrigin : String
  s : server σ
  errorText : String

/-- The function `processHandler`: the closure with `errorText` initialised. -/
def processHandler {σ : Type} (inputName _endpoint CORSOrigin : String) (s : server σ) :
    HandlerFunc σ :=
  { inputName := inputName
    CORSOrigin := CORSOrigin
    s := s
    errorText := inputName ++ " field is mandatory and can not be empty" }

/-- The state of one execution of the POST branch: the closure, the writer, the local
variables `response` and `status`, and the log of `Process` calls. -/
structure Frame (σ : Type) where
  h : HandlerFunc σ
  w : ResponseWriter
  response : Option (List (String × Value))
  status : Nat
  calls : List Request

/-- Lines 92 to 95: the Request for the validated text, with the token of the inbound
header when the engine has a memory service. -/
def requestFor {σ : Type} (h : HandlerFunc σ) (text : String) (r : http.Request) : Request :=
  let req := NewRequest (TrimSpace text) r
  match h.s.engine.memory with
  | some m => { req with Token := r.Header.Get m.TokenHeader }
  | none => req

/-- Lines 92 to 111: build the Request, call `Process`, and on success write the token
back and fill `response` and `status`; on an error assign its text to `errorText`. -/
def processText {σ : Type} (f : Frame σ) (text : String) (r : http.Request) : Frame σ :=
  let req := requestFor f.h text r
  let out := f.h.s.engine.Process req
  let p := out.2
  let s1 : server σ := { f.h.s with engine := out.1 }
  let f := { f with h := { f.h with s := s1 }, calls := f.calls ++ [req] }
  match p.err with
  | some e => { f with h := { f.h with errorText := e } }
  | none =>
    let w :=
      match s1.engine.memory with
      | some m => f.w.HeaderSet m.TokenHeader p.req.Token
      | none => f.w
    { f with
      w := w
      response := some [("error", Value.encodable (JSON.bool false)),
        ("type", Value.encodable (JSON.str p.dataType)), ("data", p.data)]
      status := 200 }

/-- Lines 88 to 113: read and decode the body, look the input field up, validate. -/
def decodeAndProcess {σ : Type} (f : Frame σ) (r : http.Request) : Frame σ :=
  let content := r.Body
  let (jsonInput, err) := Unmarshal content
  match err with
  | none =>
    let (text, ok) := jsonInput.index f.h.inputName
    if ok && RuneCountInString (TrimSpace text) > 0 then processText f text r else f
  | some _ => f

/-- Lines 115 to 121: when no status was set, the error envelope, with the value
that the shared `errorText` holds at this moment, and status 400. -/
def orFailure {σ : Type} (f : Frame σ) : Frame σ :=
  if f.status = 0 then
    { f with
      response := some [("error", Value.encodable (JSON.bool true)),
        ("message", Value.encodable (JSON.str f.h.errorText))]
      status := 400 }
  else f

/-- Lines 123 to 127: content type, CORS headers, status, marshalled body. The error
of `json.Marshal` is discarded (line 126) and the bytes, none on an error, are
written. -/
def writeResponse {σ : Type} (f : Frame σ) (r : http.Request) : Frame σ :=
  let w := f.w.HeaderSet "Content-Type" "application/json"
  let w := addCORS r w f.h.CORSOrigin
  let w := w.WriteHeader f.status
  let resp := (Marshal f.response).1
  { f with w := w.Write (resp.map Chunk.json) }

/-- What one call of the handler leaves: the shared variables at its return, the
response written, and the Requests this call has called `Process` with, in order. -/
structure Served (σ : Type) where
  h : HandlerFunc σ
  w : ResponseWriter
  calls : List Request

/-- The shared variables after another invocation, for the request `q`, has run its
lines 88 to 113: a POST decodes, validates and calls `Process` (which may assign
`errorText` and change the engine), any other method touches nothing shared. -/
def HandlerFunc.enter {σ : Type} (g : HandlerFunc σ) (q : http.Request) : HandlerFunc σ :=
  if q.Method = "POST" then
    (decodeAndProcess
      { h := g, w := ResponseWriter.fresh, response := none, status := 0, calls := [] } q).h
  else g

/-- The body of the func literal that `processHandler` returns (lines 80 to 134), run
for the request `r` while the invocations for the requests `between` run their
lines 88 to 113 after this one has passed line 113 and before it reaches line 115.
Nothing locks the shared variables, so every such schedule can occur. The
invocations that write the shared variables before this one does are accounted for
by the closure `h` it starts from, and lines 115 to 127 of another invocation write
nothing shared. -/
def HandlerFunc.callAmong {σ : Type} (h : HandlerFunc σ) (w : ResponseWriter)
    (r : http.Request) (between : List http.Request) : Served σ :=
  if r.Method = "POST" then
    let f : Frame σ := { h := h, w := w, response := none, status := 0, calls := [] }
    let f := decodeAndProcess f r
    let f := { f with h := between.foldl HandlerFunc.enter f.h }
    let f := orFailure f
    let f := writeResponse f r
    { h := f.h, w := f.w, calls := f.calls }
  else if r.Method = "OPTIONS" then
    let w := addCORS r w h.CORSOrigin
    { h := between.foldl HandlerFunc.enter h, w := w.WriteHeader 200, calls := [] }
  else
    { h := between.foldl HandlerFunc.enter h, w := http.NotFound w r, calls := [] }

/-- One invocation that runs from line 80 to line 134 with no step of another
invocation in between. -/
def HandlerFunc.call {σ : Type} (h : HandlerFunc σ) (w : ResponseWriter) (r : http.Request) :
    Served σ :=
  h.callAmong w r []

/-- Serving one request with no other invocation in between: the handler is called
with a fresh writer. -/
def HandlerFunc.ServeHTTP {σ : Type} (h : HandlerFunc σ) (r : http.Request) : Served σ :=
  h.call ResponseWriter.fresh r

/-- Serving the request `r` with a fresh writer while the invocations for `between`
run their lines 88 to 113 between its lines 113 and 115. -/
def HandlerFunc.ServeAmong {σ : Type} (h : HandlerFunc σ) (r : http.Request)
    (between : List http.Request) : Served σ :=
  h.callAmong ResponseWriter.fresh r between

/-- The closure after serving a sequence of requests one after the other. -/
def HandlerFunc.after {σ : Type} (h : HandlerFunc σ) (rs : List http.Request) : HandlerFunc σ :=
  rs.foldl (fun g r => (g.ServeHTTP r).h) h

/-- The route that `server.Run` registers (lines 43 to 62): the pattern and the
handler, with the defaults for an empty endpoint, input name and CORS origin. -/
def server.Run {σ : Type} (s : server σ) : String × HandlerFunc σ :=
  let endpoint := if s.config.Endpoint ≠ "" then s.config.Endpoint else "process"
  let inputName := if s.config.InputFieldName ≠ "" then s.config.InputFieldName else "text"
  let CORSOrigin := if s.config.CORSOrigin ≠ "" then s.config.CORSOrigin else "*"
  ("/" ++ endpoint, processHandler inputName endpoint CORSOrigin s)

/-! ## The acceptance criterion in the words of the specification -/

/-- The value of a field of a JSON object: that of the last member with the key. -/
def lastMember (members : List (String × JSON)) (key : String) : Option JSON :=
  (members.reverse.find? (fun p => p.1 == key)).map Prod.snd

/-- A generous reading of "printable character": every code point that is not a
control character (U+0000 to U+001F, U+007F to U+009F). -/
def specPrintable (c : Char) : Bool :=
  !(c.toNat < 0x20 || (0x7F ≤ c.toNat && c.toNat ≤ 0x9F))

/-- The acceptance criterion as worded: the field is present in the object and its
value, after trimming white space, contains at least one printable character. -/
def specAccepts (inputName : String) (members : List (String × JSON)) : Bool :=
  match lastMember members inputName with
  | some (JSON.str s) => (TrimSpace s).data.any specPrintable
  | _ => false

/-! ## Concrete engines and requests -/

/-- An engine that answers every text with itself, counts its calls in its state and
rotates the token by appending `+1`. -/
def echoEngine (memory : Option MemoryService) : Engine Nat :=
  { state := 0
    memory := memory
    process := fun n req =>
      { state := n + 1
        req := { req with Token := req.Token ++ "+1" }
        dataType := "echo"
        data := Value.encodable (JSON.str req.Text)
        err := none } }

/-- An engine whose `Process` always fails with the message `backend unavailable`. -/
def failingEngine (memory : Option MemoryService) : Engine Nat :=
  { state := 0
    memory := memory
    process := fun n req =>
      { state := n + 1
        req := req
        dataType := ""
        data := Value.encodable JSON.null
        err := some "backend unavailable" } }

/-- An engine whose `Process` fails with a message that names the text it was given:
`failed: ` followed by the text. -/
def refusingEngine : Engine Nat :=
  { state := 0
    memory := none
    process := fun n req =>
      { state := n + 1
        req := req
        dataType := ""
        data := Value.encodable JSON.null
        err := some ("failed: " ++ req.Text) } }

/-- An engine whose `Process` succeeds with data that `json.Marshal` refuses, such as
a NaN. -/
def nanEngine : Engine Nat :=
  { state := 0
    memory := none
    process := fun n req =>
      { state := n + 1
        req := req
        dataType := "number"
        data := Value.unsupported
        err := none } }

/-- An engine that succeeds and pads the token with a space at its end. -/
def paddingEngine (memory : Option MemoryService) : Engine Nat :=
  { state := 0
    memory := memory
    process := fun n req =>
      { state := n + 1
        req := { req with Token := req.Token ++ " " }
        dataType := "echo"
        data := Value.encodable (JSON.str req.Text)
        err := none } }

/-- The configuration with every field left empty, so that `Run` takes the defaults. -/
def defaultConfig : Config :=
  { Endpoint := "", InputFieldName := "", CORSOrigin := "" }

/-- A request with the given method, header and body. -/
def request (method : String) (header : Header) (body : Option JSON) : http.Request :=
  { Method := method, Header := header, Body := body }

/-- The handler that `Run` registers for the echo engine and the default configuration
(input field `text`, CORS origin `*`). -/
def echoHandler (memory : Option MemoryService) : HandlerFunc Nat :=
  (server.Run { engine := echoEngine memory, config := defaultConfig }).2

/-- The handler that `Run` registers for the failing engine and the default
configuration. -/
def failingHandler (memory : Option MemoryService) : HandlerFunc Nat :=
  (server.Run { engine := failingEngine memory, config := defaultConfig }).2

/-- The handler that `Run` registers for the refusing engine and the default
configuration. -/
def refusingHandler : HandlerFunc Nat :=
  (server.Run { engine := refusingEngine, config := defaultConfig }).2

/-- The handler that `Run` registers for the engine with unencodable data and the
default configuration. -/
def nanHandler : HandlerFunc Nat :=
  (server.Run { engine := nanEngine, config := defaultConfig }).2

/-- The handler that `Run` registers for the padding engine and the default
configuration. -/
def paddingHandler (memory : Option MemoryService) : HandlerFunc Nat :=
  (server.Run { engine := paddingEngine memory, config := defaultConfig }).2

/-- The JSON object with the single member `text`. -/
def textBody (text : String) : Option JSON :=
  some (JSON.obj [("text", JSON.str text)])

/-! ## Lemmas on headers and response writers -/

theorem find_filter_ne {β : Type} (l : List (String × β)) (key key1 : String) (hne : key1 ≠ key) :
    (l.filter (fun p => !(p.1 == key))).find? (fun p => p.1 == key1) =
      l.find? (fun p => p.1 == key1) := by
  induction l with
  | nil => rfl
  | cons p ps ih =>
    by_cases hp : p.1 = key
    · have hp1 : ¬ p.1 = key1 := fun e => hne (e.symm.trans hp)
      have hb : (p.1 == key) = true := by simpa using hp
      have hb1 : (p.1 == key1) = false := by simpa using hp1
      rw [List.filter_cons, List.find?_cons]
      simp only [hb, hb1, Bool.not_true]
      exact ih
    · have hb : (p.1 == key) = false := by simpa using hp
      rw [List.filter_cons]
      simp only [hb, Bool.not_false, if_true]
      rw [List.find?_cons, List.find?_cons, ih]

theorem Values_Set_self (h : Header) (key value : String) :
    (Header.Set h key value).Values key = [value] := by
  simp [Header.Values, Header.entry, Header.Set]

theorem Values_Set_of_ne (h : Header) (key key1 value : String)
    (hne : CanonicalMIMEHeaderKey key1 ≠ CanonicalMIMEHeaderKey key) :
    (Header.Set h key value).Values key1 = h.Values key1 := by
  have hb : ((CanonicalMIMEHeaderKey key) == (CanonicalMIMEHeaderKey key1)) = false := by
    simpa using fun e => hne e.symm
  simp only [Header.Values, Header.entry, Header.Set, List.find?_cons, hb]
  rw [find_filter_ne h _ _ hne]

theorem index_set_self (m : StringMap) (key value : String) :
    (m.set key value).index key = (value, true) := by
  simp [StringMap.index, StringMap.set]

theorem index_set_of_ne (m : StringMap) (key key1 value : String) (hne : key1 ≠ key) :
    (m.set key value).index key1 = m.index key1 := by
  have hb : (key == key1) = false := by simpa using fun e => hne e.symm
  simp only [StringMap.index, StringMap.set, List.find?_cons, hb]
  rw [find_filter_ne m _ _ hne]

theorem Marshal_success (dataType : String) (data : JSON) :
    Marshal (some [("error", Value.encodable (JSON.bool false)),
      ("type", Value.encodable (JSON.str dataType)), ("data", Value.encodable data)]) =
      (some (JSON.obj [("data", data), ("error", JSON.bool false),
        ("type", JSON.str dataType)]), none) := by
  rfl

theorem Marshal_unsupported (dataType : String) :
    Marshal (some [("error", Value.encodable (JSON.bool false)),
      ("type", Value.encodable (JSON.str dataType)), ("data", Value.unsupported)]) =
      (none, some MarshalError.UnsupportedValue) := by
  rfl

theorem Marshal_failure (message : String) :
    Marshal (some [("error", Value.encodable (JSON.bool true)),
      ("message", Value.encodable (JSON.str message))]) =
      (some (JSON.obj [("error", JSON.bool true), ("message", JSON.str message)]), none) := by
  rfl

theorem runeCount_trim_eq_zero_iff (s : String) :
    RuneCountInString (TrimSpace s) = 0 ↔ s.data.all isSpace = true := by
  unfold RuneCountInString TrimSpace
  simp only [List.length_reverse, List.length_eq_zero, List.dropWhile_eq_nil_iff, List.all_eq_true]
  constructor
  · intro hall
    by_cases hnil : s.data.dropWhile isSpace = []
    · exact List.dropWhile_eq_nil_iff.mp hnil
    · exfalso
      have hhead := List.head_dropWhile_not isSpace s.data hnil
      have hmem : (s.data.dropWhile isSpace).head hnil ∈ (s.data.dropWhile isSpace).reverse :=
        List.mem_reverse.mpr (List.head_mem hnil)
      have := hall _ hmem
      simp [this] at hhead
  · intro hall x hx
    have hnil : s.data.dropWhile isSpace = [] := List.dropWhile_eq_nil_iff.mpr hall
    rw [hnil] at hx
    simp at hx

theorem trimmed_pos_of_not_all_space (s : String) (h : ¬ s.data.all isSpace = true) :
    0 < RuneCountInString (TrimSpace s) := by
  rcases Nat.eq_zero_or_pos (RuneCountInString (TrimSpace s)) with h0 | h0
  · exact absurd ((runeCount_trim_eq_zero_iff s).mp h0) h
  · exact h0

theorem canon_ContentType : CanonicalMIMEHeaderKey "Content-Type" = "Content-Type" := by
  decide

theorem canon_AllowOrigin :
    CanonicalMIMEHeaderKey "Access-Control-Allow-Origin" = "Access-Control-Allow-Origin" := by
  decide

theorem canon_AllowHeaders :
    CanonicalMIMEHeaderKey "Access-Control-Allow-Headers" = "Access-Control-Allow-Headers" := by
  decide

theorem canon_AllowMethod :
    CanonicalMIMEHeaderKey "Access-Control-Allow-Method" = "Access-Control-Allow-Method" := by
  decide

theorem canon_NoSniff :
    CanonicalMIMEHeaderKey "X-Content-Type-Options" = "X-Content-Type-Options" := by
  decide


/-- The header lines the handler sets itself are written, whatever their values. -/
theorem sendsLine_fixed (values : List String) :
    sendsLine ("Content-Type", values) = true ∧
    sendsLine ("Access-Control-Allow-Origin", values) = true ∧
    sendsLine ("Access-Control-Allow-Headers", values) = true ∧
    sendsLine ("Access-Control-Allow-Method", values) = true ∧
    sendsLine ("X-Content-Type-Options", values) = true := by
  have h1 : ValidHeaderFieldName "Content-Type" = true := by decide
  have h2 : ValidHeaderFieldName "Access-Control-Allow-Origin" = true := by decide
  have h3 : ValidHeaderFieldName "Access-Control-Allow-Headers" = true := by decide
  have h4 : ValidHeaderFieldName "Access-Control-Allow-Method" = true := by decide
  have h5 : ValidHeaderFieldName "X-Content-Type-Options" = true := by decide
  simp [sendsLine, h1, h2, h3, h4, h5]

/-- A line whose name is valid and is none of `Transfer-Encoding`, `Connection`,
`Trailer`, `Content-Length` is written, whatever its values. -/
theorem sendsLine_of_name (key : String) (values : List String)
    (hValid : ValidHeaderFieldName key = true) (hTE : key ≠ "Transfer-Encoding")
    (hConn : key ≠ "Connection") (hTrailer : key ≠ "Trailer")
    (hCL : key ≠ "Content-Length") :
    sendsLine (key, values) = true := by
  simp [sendsLine, hValid, hTE, hConn, hTrailer, hCL]

/-- Filtering a header by a test that passes every line of a key leaves the entry of
that key as it was. -/
theorem entry_filter_of_pass (h : Header) (keep : String × List String → Bool) (key : String)
    (hPass : ∀ values, keep (key, values) = true) :
    Header.entry (h.filter keep) key = Header.entry h key := by
  have hfind : (h.filter keep).find? (fun p => p.1 == key) = h.find? (fun p => p.1 == key) := by
    induction h with
    | nil => rfl
    | cons p ps ih =>
      by_cases hp : p.1 = key
      · have hk : keep p = true := by
          obtain ⟨k, vs⟩ := p
          simp only at hp
          rw [hp]
          exact hPass vs
        have hb : (p.1 == key) = true := by simpa using hp
        rw [List.filter_cons]
        simp only [hk, if_true]
        rw [List.find?_cons, List.find?_cons]
        simp only [hb]
      · have hb : (p.1 == key) = false := by simpa using hp
        rw [List.filter_cons, List.find?_cons]
        simp only [hb]
        by_cases hk : keep p = true
        · simp only [hk, if_true]
          rw [List.find?_cons]
          simp only [hb]
          exact ih
        · simp only [hk]
          exact ih
  unfold Header.entry
  rw [hfind]

/-- Rewriting the values of a header line by line rewrites the entry of every key. -/
theorem entry_map_values (h : Header) (f : String → String) (key : String) :
    Header.entry (h.map (fun p => (p.1, p.2.map f))) key = (Header.entry h key).map f := by
  induction h with
  | nil => rfl
  | cons p ps ih =>
    unfold Header.entry at ih ⊢
    rw [List.map_cons, List.find?_cons, List.find?_cons]
    by_cases hp : p.1 = key
    · have hb : (p.1 == key) = true := by simpa using hp
      simp only [hb]
    · have hb : (p.1 == key) = false := by simpa using hp
      simp only [hb]
      exact ih

/-- Dropping from a list that is empty or starts with a kept element drops nothing. -/
theorem dropWhile_asciiSpace_of_start (l : List Char)
    (hAll : l.all (fun c => 0x20 ≤ c.toNat && !(c.toNat == 0x7F)) = true)
    (hStart : startsUnspaced l = true) : l.dropWhile isASCIISpace = l := by
  cases l with
  | nil => rfl
  | cons c cs =>
    have hc : isASCIISpace c = false := by
      simp only [List.all_cons, Bool.and_eq_true, decide_eq_true_eq] at hAll
      simp only [startsUnspaced, Bool.not_eq_true', beq_eq_false_iff_ne, ne_eq] at hStart
      have h20 : 0x20 ≤ c.toNat := hAll.1.1
      simp only [isASCIISpace, Bool.or_eq_false_iff, beq_eq_false_iff_ne, ne_eq]
      refine ⟨⟨⟨hStart, ?_⟩, ?_⟩, ?_⟩ <;> omega
    rw [List.dropWhile_cons]
    simp [hc]

/-- A plain value is written as it is. -/
theorem sanitizeValue_plain (v : String) (hPlain : plainValue v = true) :
    sanitizeValue v = v := by
  simp only [plainValue, Bool.and_eq_true] at hPlain
  obtain ⟨⟨hAll, hStart⟩, hEnd⟩ := hPlain
  have hmap : v.data.map (fun c =>
      if c.toNat == 0x0A || c.toNat == 0x0D then Char.ofNat 0x20 else c) = v.data := by
    have hid : ∀ c ∈ v.data, (fun c : Char =>
        if c.toNat == 0x0A || c.toNat == 0x0D then Char.ofNat 0x20 else c) c = c := by
      intro c hc
      have h20 := List.all_eq_true.mp hAll c hc
      simp only [Bool.and_eq_true, decide_eq_true_eq] at h20
      have hno : (c.toNat == 0x0A || c.toNat == 0x0D) = false := by
        simp only [Bool.or_eq_false_iff, beq_eq_false_iff_ne, ne_eq]
        constructor <;> omega
      simp only [hno]
      rfl
    calc v.data.map _ = v.data.map id := List.map_congr_left hid
      _ = v.data := List.map_id _
  have hAllRev : v.data.reverse.all (fun c => 0x20 ≤ c.toNat && !(c.toNat == 0x7F)) = true := by
    rw [List.all_eq_true] at hAll ⊢
    intro c hc
    exact hAll c (List.mem_reverse.mp hc)
  unfold sanitizeValue
  rw [hmap, dropWhile_asciiSpace_of_start _ hAll hStart,
    dropWhile_asciiSpace_of_start _ hAllRev hEnd, List.reverse_reverse]


/-! ## Decoding and validation -/

/-- The two outcomes of decoding and validation (lines 88 to 91). -/
theorem validation_cases (inputName : String) (r : http.Request) :
    ((Unmarshal r.Body).2 ≠ none ∨
      ((Unmarshal r.Body).1.index inputName).2 = false ∨
      ((Unmarshal r.Body).1.index inputName).1.data.all isSpace = true) ∨
    (∃ m text, Unmarshal r.Body = (m, none) ∧ m.index inputName = (text, true) ∧
      0 < RuneCountInString (TrimSpace text)) := by
  rcases hU : Unmarshal r.Body with ⟨m, err⟩
  cases err with
  | some e => exact Or.inl (Or.inl (by simp))
  | none =>
    rcases hI : m.index inputName with ⟨text, ok⟩
    cases ok with
    | false => exact Or.inl (Or.inr (Or.inl (by simp [hI])))
    | true =>
      by_cases hs : text.data.all isSpace = true
      · exact Or.inl (Or.inr (Or.inr (by simp only [hI]; exact hs)))
      · exact Or.inr ⟨m, text, rfl, hI, trimmed_pos_of_not_all_space text hs⟩

/-- Decoding an object whose member values are all strings or `null` raises no error,
and the map then holds, under every key, the last member with that key. -/
theorem decodeMembers_strings (members : List (String × JSON)) (key : String) :
    ∀ m0 : StringMap, (∀ p ∈ members, p.2 = JSON.null ∨ ∃ s, p.2 = JSON.str s) →
      (decodeMembers members m0 none).2 = none ∧
      (decodeMembers members m0 none).1.index key =
        (match lastMember members key with
         | some v => ((decodeElem v).1, true)
         | none => m0.index key) := by
  induction members with
  | nil => intro m0 _; exact ⟨rfl, rfl⟩
  | cons p ps ih =>
    intro m0 hStr
    obtain ⟨k, v⟩ := p
    have hv : (decodeElem v).2 = none := by
      rcases hStr (k, v) (List.mem_cons_self _ _) with hn | ⟨s, hs⟩
      · simp only at hn; rw [hn]; rfl
      · simp only at hs; rw [hs]; rfl
    have hrest := ih (m0.set k (decodeElem v).1)
      (fun q hq => hStr q (List.mem_cons_of_mem _ hq))
    have hstep : decodeMembers ((k, v) :: ps) m0 none =
        decodeMembers ps (m0.set k (decodeElem v).1) none := by
      simp only [decodeMembers, hv]
    rw [hstep]
    refine ⟨hrest.1, ?_⟩
    rw [hrest.2]
    have hlast : lastMember ((k, v) :: ps) key =
        (match lastMember ps key with
         | some u => some u
         | none => if k = key then some v else none) := by
      unfold lastMember
      rw [List.reverse_cons, List.find?_append]
      cases hfind : List.find? (fun p => p.1 == key) ps.reverse with
      | some q => simp
      | none =>
        by_cases hk : k = key
        · simp [hk]
        · simp [hk]
    rw [hlast]
    cases hl : lastMember ps key with
    | some u => rfl
    | none =>
      by_cases hk : k = key
      · simp only [hk, if_true]
        rw [index_set_self]
      · simp only [hk, if_false]
        rw [index_set_of_ne _ _ _ _ (fun e => hk e.symm)]

/-- The last member with a key is a member. -/
theorem lastMember_mem (members : List (String × JSON)) (key : String) (v : JSON)
    (h : lastMember members key = some v) : (key, v) ∈ members := by
  unfold lastMember at h
  cases hfind : List.find? (fun p => p.1 == key) members.reverse with
  | none => rw [hfind] at h; simp at h
  | some q =>
    rw [hfind] at h
    have hk := List.find?_some hfind
    have hm := List.mem_of_find?_eq_some hfind
    have hv : q.2 = v := by simpa using h
    have hq : q = (key, v) := by
      obtain ⟨q1, q2⟩ := q
      simp only at hv
      simp only [beq_iff_eq] at hk
      rw [hk, hv]
    rw [← hq]
    exact List.mem_reverse.mp hm

/-- An error recorded while decoding the members of an object stays recorded. -/
theorem decodeMembers_error_kept (members : List (String × JSON)) :
    ∀ (m0 : StringMap) (e : UnmarshalError), (decodeMembers members m0 (some e)).2 = some e := by
  induction members with
  | nil => intro m0 e; rfl
  | cons p ps ih =>
    intro m0 e
    obtain ⟨k, v⟩ := p
    simp only [decodeMembers]
    exact ih _ e

/-- A member value decodes into a string map element without error exactly when it is
a string or `null`. -/
theorem decodeElem_ok_iff (v : JSON) :
    (decodeElem v).2 = none ↔ (v = JSON.null ∨ ∃ s, v = JSON.str s) := by
  cases v <;> simp [decodeElem]

/-- Decoding an object that has a member whose value is neither a string nor `null`
returns an error. -/
theorem decodeMembers_mismatch (members : List (String × JSON)) :
    ∀ (m0 : StringMap) (err : Option UnmarshalError),
      (∃ p ∈ members, ¬ (p.2 = JSON.null ∨ ∃ s, p.2 = JSON.str s)) →
      (decodeMembers members m0 err).2 ≠ none := by
  induction members with
  | nil =>
    intro m0 err hbad
    obtain ⟨p, hp, _⟩ := hbad
    exact absurd hp (List.not_mem_nil _)
  | cons q qs ih =>
    intro m0 err hbad
    obtain ⟨k, v⟩ := q
    obtain ⟨p, hp, hpbad⟩ := hbad
    simp only [decodeMembers]
    rcases List.mem_cons.mp hp with hhead | htail
    · subst hhead
      have hv : (decodeElem v).2 ≠ none := fun hnone => hpbad ((decodeElem_ok_iff v).mp hnone)
      cases err with
      | some e =>
        simp only
        rw [decodeMembers_error_kept]
        simp
      | none =>
        simp only
        cases hd : (decodeElem v).2 with
        | none => exact absurd hd hv
        | some e =>
          rw [decodeMembers_error_kept]
          simp
    · exact ih _ _ ⟨p, htail, hpbad⟩


/-! ## The POST branch, outcome by outcome -/

/-- Lines 88 to 113 leave the frame as it was when the body fails to decode, lacks the
input field, or holds only white space in it. -/
theorem decodeAndProcess_rejected {σ : Type} (f : Frame σ) (r : http.Request)
    (hRej : (Unmarshal r.Body).2 ≠ none ∨
      ((Unmarshal r.Body).1.index f.h.inputName).2 = false ∨
      ((Unmarshal r.Body).1.index f.h.inputName).1.data.all isSpace = true) :
    decodeAndProcess f r = f := by
  rcases hU : Unmarshal r.Body with ⟨m, err⟩
  rw [hU] at hRej
  cases err with
  | some e => simp only [decodeAndProcess, hU]
  | none =>
    rcases hI : m.index f.h.inputName with ⟨text, ok⟩
    simp only [hI] at hRej
    rcases hRej with h1 | h1 | h1
    · exact absurd rfl h1
    · simp [decodeAndProcess, hU, hI, h1]
    · simp [decodeAndProcess, hU, hI, (runeCount_trim_eq_zero_iff text).mpr h1]

/-- Lines 88 to 113 run lines 92 to 111 on the text of the input field when the body
decodes and the field passes validation. -/
theorem decodeAndProcess_accepted {σ : Type} (f : Frame σ) (r : http.Request) (m : StringMap)
    (text : String) (hDec : Unmarshal r.Body = (m, none))
    (hField : m.index f.h.inputName = (text, true))
    (hText : 0 < RuneCountInString (TrimSpace text)) :
    decodeAndProcess f r = processText f text r := by
  simp [decodeAndProcess, hDec, hField, hText]

/-- Lines 92 to 111 leave the input name, the CORS origin, the memory service and the
configuration of the closure as they were. -/
theorem processText_preserves {σ : Type} (f : Frame σ) (text : String) (r : http.Request) :
    (processText f text r).h.inputName = f.h.inputName ∧
    (processText f text r).h.CORSOrigin = f.h.CORSOrigin ∧
    (processText f text r).h.s.engine.memory = f.h.s.engine.memory ∧
    (processText f text r).h.s.config = f.h.s.config := by
  unfold processText
  simp only [Engine.Process]
  cases (f.h.s.engine.process f.h.s.engine.state (requestFor f.h text r)).err <;> simp

/-- Lines 88 to 113 of another invocation leave the input name, the CORS origin, the
memory service and the configuration of the closure as they were. -/
theorem enter_preserves {σ : Type} (g : HandlerFunc σ) (q : http.Request) :
    (g.enter q).inputName = g.inputName ∧
    (g.enter q).CORSOrigin = g.CORSOrigin ∧
    (g.enter q).s.engine.memory = g.s.engine.memory ∧
    (g.enter q).s.config = g.s.config := by
  unfold HandlerFunc.enter
  by_cases hPost : q.Method = "POST"
  · simp only [hPost, if_true]
    rcases validation_cases g.inputName q with hRej | ⟨m, text, hDec, hField, hText⟩
    · rw [decodeAndProcess_rejected _ q hRej]
      exact ⟨rfl, rfl, rfl, rfl⟩
    · rw [decodeAndProcess_accepted _ q m text hDec hField hText]
      exact processText_preserves _ text q
  · simp [hPost]

/-- The lines 88 to 113 of any number of other invocations leave the input name, the
CORS origin and the memory service of the closure as they were. -/
theorem foldl_enter_preserves {σ : Type} (between : List http.Request) (g : HandlerFunc σ) :
    (between.foldl HandlerFunc.enter g).inputName = g.inputName ∧
    (between.foldl HandlerFunc.enter g).CORSOrigin = g.CORSOrigin ∧
    (between.foldl HandlerFunc.enter g).s.engine.memory = g.s.engine.memory := by
  induction between generalizing g with
  | nil => exact ⟨rfl, rfl, rfl⟩
  | cons q qs ih =>
    have h1 := enter_preserves g q
    have h2 := ih (g.enter q)
    simp only [List.foldl_cons]
    exact ⟨h2.1.trans h1.1, h2.2.1.trans h1.2.1, h2.2.2.trans h1.2.2.1⟩

/-- A POST whose body fails to decode, lacks the input field, or holds only white
space in it, served among other invocations: no `Process` call of its own, status
400, and the failure envelope whose message is the value that the shared `errorText`
holds once the other invocations have passed line 113. -/
theorem among_rejected {σ : Type} (h : HandlerFunc σ) (r : http.Request)
    (between : List http.Request) (hPost : r.Method = "POST")
    (hRej : (Unmarshal r.Body).2 ≠ none ∨
      ((Unmarshal r.Body).1.index h.inputName).2 = false ∨
      ((Unmarshal r.Body).1.index h.inputName).1.data.all isSpace = true) :
    (h.ServeAmong r between).h = between.foldl HandlerFunc.enter h ∧
    (h.ServeAmong r between).calls = [] ∧
    (h.ServeAmong r between).w.status = 400 ∧
    (h.ServeAmong r between).w.body = [Chunk.json (JSON.obj
      [("error", JSON.bool true),
       ("message", JSON.str (between.foldl HandlerFunc.enter h).errorText)])] ∧
    (h.ServeAmong r between).w.wire =
      [("Access-Control-Allow-Method", ["OPTIONS,POST"]),
       ("Access-Control-Allow-Headers", [r.Header.Get "Access-Control-Request-Headers"]),
       ("Access-Control-Allow-Origin", [h.CORSOrigin]),
       ("Content-Type", ["application/json"])] := by
  have hf := decodeAndProcess_rejected
    ({ h := h, w := ResponseWriter.fresh, response := none, status := 0, calls := [] } : Frame σ)
    r hRej
  have hO := (foldl_enter_preserves between h).2.1
  simp only [HandlerFunc.ServeAmong, HandlerFunc.callAmong, hPost, if_true, hf]
  simp [orFailure, writeResponse, Marshal_failure, ResponseWriter.HeaderSet,
    ResponseWriter.WriteHeader, ResponseWriter.Write, addCORS, ResponseWriter.fresh, Header.Set,
    canon_ContentType, canon_AllowOrigin, canon_AllowHeaders, canon_AllowMethod,
    sendsLine_fixed, hO]

/-- A POST whose body fails to decode, lacks the input field, or holds only white
space in it: no `Process` call, the closure unchanged, status 400, and the failure
envelope whose message is the current value of the captured `errorText`. -/
theorem post_rejected {σ : Type} (h : HandlerFunc σ) (r : http.Request)
    (hPost : r.Method = "POST")
    (hRej : (Unmarshal r.Body).2 ≠ none ∨
      ((Unmarshal r.Body).1.index h.inputName).2 = false ∨
      ((Unmarshal r.Body).1.index h.inputName).1.data.all isSpace = true) :
    (h.ServeHTTP r).h = h ∧ (h.ServeHTTP r).calls = [] ∧
    (h.ServeHTTP r).w.status = 400 ∧
    (h.ServeHTTP r).w.body = [Chunk.json (JSON.obj
      [("error", JSON.bool true), ("message", JSON.str h.errorText)])] ∧
    (h.ServeHTTP r).w.wire =
      [("Access-Control-Allow-Method", ["OPTIONS,POST"]),
       ("Access-Control-Allow-Headers", [r.Header.Get "Access-Control-Request-Headers"]),
       ("Access-Control-Allow-Origin", [h.CORSOrigin]),
       ("Content-Type", ["application/json"])] :=
  among_rejected h r [] hPost hRej

/-- A POST whose input field passes validation, served among other invocations:
`Process` is called once by this invocation, with the Request of lines 92 to 95. -/
theorem among_accepted_calls {σ : Type} (h : HandlerFunc σ) (r : http.Request)
    (between : List http.Request) (m : StringMap)
    (text : String) (hPost : r.Method = "POST") (hDec : Unmarshal r.Body = (m, none))
    (hField : m.index h.inputName = (text, true))
    (hText : 0 < RuneCountInString (TrimSpace text)) :
    (h.ServeAmong r between).calls = [requestFor h text r] := by
  have hf := decodeAndProcess_accepted
    ({ h := h, w := ResponseWriter.fresh, response := none, status := 0, calls := [] } : Frame σ)
    r m text hDec hField hText
  simp only [HandlerFunc.ServeAmong, HandlerFunc.callAmong, hPost, if_true, hf, processText,
    Engine.Process, orFailure, writeResponse]
  cases (h.s.engine.process h.s.engine.state (requestFor h text r)).err <;> simp

/-- A POST whose input field passes validation: `Process` is called once, with the
Request of lines 92 to 95. -/
theorem post_accepted_calls {σ : Type} (h : HandlerFunc σ) (r : http.Request) (m : StringMap)
    (text : String) (hPost : r.Method = "POST") (hDec : Unmarshal r.Body = (m, none))
    (hField : m.index h.inputName = (text, true))
    (hText : 0 < RuneCountInString (TrimSpace text)) :
    (h.ServeHTTP r).calls = [requestFor h text r] :=
  among_accepted_calls h r [] m text hPost hDec hField hText

/-- A POST whose input field passes validation and whose `Process` call succeeds,
served among other invocations: status 200, the bytes that `json.Marshal` gives for
the success envelope (none when it refuses the data), the header with the token
written first, and the engine in the state the one call left it in, then changed by
the other invocations only. -/
theorem among_accepted_ok {σ : Type} (h : HandlerFunc σ) (r : http.Request)
    (between : List http.Request) (m : StringMap)
    (text : String) (hPost : r.Method = "POST") (hDec : Unmarshal r.Body = (m, none))
    (hField : m.index h.inputName = (text, true))
    (hText : 0 < RuneCountInString (TrimSpace text))
    (hOk : (h.s.engine.process h.s.engine.state (requestFor h text r)).err = none) :
    (h.ServeAmong r between).w.status = 200 ∧
    (h.ServeAmong r between).w.body =
      ((Marshal (some [("error", Value.encodable (JSON.bool false)),
        ("type", Value.encodable (JSON.str
          (h.s.engine.process h.s.engine.state (requestFor h text r)).dataType)),
        ("data", (h.s.engine.process h.s.engine.state (requestFor h text r)).data)])).1.map
        Chunk.json).toList ∧
    (h.ServeAmong r between).w.wire =
      (((((match h.s.engine.memory with
          | some mem => Header.Set [] mem.TokenHeader
              (h.s.engine.process h.s.engine.state (requestFor h text r)).req.Token
          | none => []).Set "Content-Type" "application/json").Set
          "Access-Control-Allow-Origin" h.CORSOrigin).Set
          "Access-Control-Allow-Headers" (r.Header.Get "Access-Control-Request-Headers")).Set
          "Access-Control-Allow-Method" "OPTIONS,POST").filter sendsLine ∧
    (h.ServeAmong r between).h = between.foldl HandlerFunc.enter
      { h with s := { h.s with engine := { h.s.engine with
          state := (h.s.engine.process h.s.engine.state (requestFor h text r)).state } } } := by
  have hf := decodeAndProcess_accepted
    ({ h := h, w := ResponseWriter.fresh, response := none, status := 0, calls := [] } : Frame σ)
    r m text hDec hField hText
  simp only [HandlerFunc.ServeAmong, HandlerFunc.callAmong, hPost, if_true, hf, processText,
    Engine.Process, hOk, orFailure, writeResponse]
  have hO := fun g : HandlerFunc σ => (foldl_enter_preserves between g).2.1
  cases h.s.engine.memory <;>
    simp [ResponseWriter.HeaderSet, ResponseWriter.WriteHeader, ResponseWriter.Write, addCORS,
      ResponseWriter.fresh, hO]

/-- A POST whose input field passes validation and whose `Process` call succeeds:
status 200, the bytes that `json.Marshal` gives for the success envelope, and the
header with the token written first. -/
theorem post_accepted_ok {σ : Type} (h : HandlerFunc σ) (r : http.Request) (m : StringMap)
    (text : String) (hPost : r.Method = "POST") (hDec : Unmarshal r.Body = (m, none))
    (hField : m.index h.inputName = (text, true))
    (hText : 0 < RuneCountInString (TrimSpace text))
    (hOk : (h.s.engine.process h.s.engine.state (requestFor h text r)).err = none) :
    (h.ServeHTTP r).w.status = 200 ∧
    (h.ServeHTTP r).w.body =
      ((Marshal (some [("error", Value.encodable (JSON.bool false)),
        ("type", Value.encodable (JSON.str
          (h.s.engine.process h.s.engine.state (requestFor h text r)).dataType)),
        ("data", (h.s.engine.process h.s.engine.state (requestFor h text r)).data)])).1.map
        Chunk.json).toList ∧
    (h.ServeHTTP r).w.wire =
      (((((match h.s.engine.memory with
          | some mem => Header.Set [] mem.TokenHeader
              (h.s.engine.process h.s.engine.state (requestFor h text r)).req.Token
          | none => []).Set "Content-Type" "application/json").Set
          "Access-Control-Allow-Origin" h.CORSOrigin).Set
          "Access-Control-Allow-Headers" (r.Header.Get "Access-Control-Request-Headers")).Set
          "Access-Control-Allow-Method" "OPTIONS,POST").filter sendsLine ∧
    (h.ServeHTTP r).h =
      { h with s := { h.s with engine := { h.s.engine with
          state := (h.s.engine.process h.s.engine.state (requestFor h text r)).state } } } :=
  among_accepted_ok h r [] m text hPost hDec hField hText hOk

/-- A POST whose input field passes validation and whose `Process` call fails with
the message `e`, served among other invocations: status 400, no token header, and
the failure envelope whose message is the value that the shared `errorText` holds
once the other invocations have passed line 113, this invocation having assigned
`e` to it before them. -/
theorem among_accepted_err {σ : Type} (h : HandlerFunc σ) (r : http.Request)
    (between : List http.Request) (m : StringMap)
    (text e : String) (hPost : r.Method = "POST") (hDec : Unmarshal r.Body = (m, none))
    (hField : m.index h.inputName = (text, true))
    (hText : 0 < RuneCountInString (TrimSpace text))
    (hErr : (h.s.engine.process h.s.engine.state (requestFor h text r)).err = some e) :
    (h.ServeAmong r between).w.status = 400 ∧
    (h.ServeAmong r between).w.body = [Chunk.json (JSON.obj
      [("error", JSON.bool true),
       ("message", JSON.str (between.foldl HandlerFunc.enter
         { h with
           s := { h.s with engine := { h.s.engine with
             state := (h.s.engine.process h.s.engine.state (requestFor h text r)).state } }
           errorText := e }).errorText)])] ∧
    (h.ServeAmong r between).w.wire =
      [("Access-Control-Allow-Method", ["OPTIONS,POST"]),
       ("Access-Control-Allow-Headers", [r.Header.Get "Access-Control-Request-Headers"]),
       ("Access-Control-Allow-Origin", [h.CORSOrigin]),
       ("Content-Type", ["application/json"])] ∧
    (h.ServeAmong r between).h = between.foldl HandlerFunc.enter
      { h with
        s := { h.s with engine := { h.s.engine with
          state := (h.s.engine.process h.s.engine.state (requestFor h text r)).state } }
        errorText := e } := by
  have hf := decodeAndProcess_accepted
    ({ h := h, w := ResponseWriter.fresh, response := none, status := 0, calls := [] } : Frame σ)
    r m text hDec hField hText
  simp only [HandlerFunc.ServeAmong, HandlerFunc.callAmong, hPost, if_true, hf, processText,
    Engine.Process, hErr, orFailure, writeResponse]
  have hO := fun g : HandlerFunc σ => (foldl_enter_preserves between g).2.1
  simp [ResponseWriter.HeaderSet, ResponseWriter.WriteHeader, ResponseWriter.Write, addCORS,
    ResponseWriter.fresh, Marshal_failure, Header.Set,
    canon_ContentType, canon_AllowOrigin, canon_AllowHeaders, canon_AllowMethod,
    sendsLine_fixed, hO]

/-- A POST whose input field passes validation and whose `Process` call fails with
the message `e`: status 400, the failure envelope with `e`, no token header, and
`e` left in the captured `errorText`. -/
theorem post_accepted_err {σ : Type} (h : HandlerFunc σ) (r : http.Request) (m : StringMap)
    (text e : String) (hPost : r.Method = "POST") (hDec : Unmarshal r.Body = (m, none))
    (hField : m.index h.inputName = (text, true))
    (hText : 0 < RuneCountInString (TrimSpace text))
    (hErr : (h.s.engine.process h.s.engine.state (requestFor h text r)).err = some e) :
    (h.ServeHTTP r).w.status = 400 ∧
    (h.ServeHTTP r).w.body = [Chunk.json (JSON.obj
      [("error", JSON.bool true), ("message", JSON.str e)])] ∧
    (h.ServeHTTP r).w.wire =
      [("Access-Control-Allow-Method", ["OPTIONS,POST"]),
       ("Access-Control-Allow-Headers", [r.Header.Get "Access-Control-Request-Headers"]),
       ("Access-Control-Allow-Origin", [h.CORSOrigin]),
       ("Content-Type", ["application/json"])] ∧
    (h.ServeHTTP r).h.errorText = e := by
  have hk := among_accepted_err h r [] m text e hPost hDec hField hText hErr
  refine ⟨hk.1, hk.2.1, hk.2.2.1, ?_⟩
  have hh : (h.ServeHTTP r).h = _ := hk.2.2.2
  rw [hh]
  rfl

/-- An OPTIONS request: nothing but the CORS headers and status 200. -/
theorem options_served {σ : Type} (h : HandlerFunc σ) (r : http.Request)
    (hOpt : r.Method = "OPTIONS") :
    h.ServeHTTP r =
      { h := h
        w := { header := [("Access-Control-Allow-Method", ["OPTIONS,POST"]),
                 ("Access-Control-Allow-Headers", [r.Header.Get "Access-Control-Request-Headers"]),
                 ("Access-Control-Allow-Origin", [h.CORSOrigin])]
               status := 200
               wire := [("Access-Control-Allow-Method", ["OPTIONS,POST"]),
                 ("Access-Control-Allow-Headers", [r.Header.Get "Access-Control-Request-Headers"]),
                 ("Access-Control-Allow-Origin", [h.CORSOrigin])]
               body := [] }
        calls := [] } := by
  have hne : ¬ r.Method = "POST" := by rw [hOpt]; decide
  simp [HandlerFunc.ServeHTTP, HandlerFunc.call, HandlerFunc.callAmong, hne, hOpt,
    ResponseWriter.HeaderSet, ResponseWriter.WriteHeader, addCORS, ResponseWriter.fresh,
    Header.Set, canon_AllowOrigin, canon_AllowHeaders, canon_AllowMethod, sendsLine_fixed]

/-- Any other method: the reply of `http.NotFound`. -/
theorem other_served {σ : Type} (h : HandlerFunc σ) (r : http.Request)
    (hPost : r.Method ≠ "POST") (hOpt : r.Method ≠ "OPTIONS") :
    h.ServeHTTP r =
      { h := h
        w := { header := [("X-Content-Type-Options", ["nosniff"]),
                 ("Content-Type", ["text/plain; charset=utf-8"])]
               status := 404
               wire := [("X-Content-Type-Options", ["nosniff"]),
                 ("Content-Type", ["text/plain; charset=utf-8"])]
               body := [Chunk.text "404 page not found\n"] }
        calls := [] } := by
  simp [HandlerFunc.ServeHTTP, HandlerFunc.call, HandlerFunc.callAmong, hPost, hOpt,
    http.NotFound, http.Error, ResponseWriter.HeaderSet, ResponseWriter.WriteHeader,
    ResponseWriter.Write, ResponseWriter.fresh, Header.Set, canon_ContentType, canon_NoSniff,
    sendsLine_fixed]


/-- One call of the handler with no other invocation in between leaves the input name,
the CORS origin, the memory service and the configuration of the closure as they
were. -/
theorem serve_preserves {σ : Type} (h : HandlerFunc σ) (r : http.Request) :
    (h.ServeHTTP r).h.inputName = h.inputName ∧
    (h.ServeHTTP r).h.CORSOrigin = h.CORSOrigin ∧
    (h.ServeHTTP r).h.s.engine.memory = h.s.engine.memory ∧
    (h.ServeHTTP r).h.s.config = h.s.config := by
  by_cases hPost : r.Method = "POST"
  · rcases validation_cases h.inputName r with hRej | ⟨m, text, hDec, hField, hText⟩
    · rw [(post_rejected h r hPost hRej).1]
      exact ⟨rfl, rfl, rfl, rfl⟩
    · cases hErr : (h.s.engine.process h.s.engine.state (requestFor h text r)).err with
      | none =>
        rw [(post_accepted_ok h r m text hPost hDec hField hText hErr).2.2.2]
        exact ⟨rfl, rfl, rfl, rfl⟩
      | some e =>
        have hk := (among_accepted_err h r [] m text e hPost hDec hField hText hErr).2.2.2
        have hh : (h.ServeHTTP r).h = _ := hk
        rw [hh]
        exact ⟨rfl, rfl, rfl, rfl⟩
  · by_cases hOpt : r.Method = "OPTIONS"
    · rw [options_served h r hOpt]
      exact ⟨rfl, rfl, rfl, rfl⟩
    · rw [other_served h r hPost hOpt]
      exact ⟨rfl, rfl, rfl, rfl⟩

/-- Serving any sequence of requests leaves the input name, the CORS origin and the
memory service of the closure as they were. -/
theorem after_preserves {σ : Type} (rs : List http.Request) (h : HandlerFunc σ) :
    (h.after rs).inputName = h.inputName ∧
    (h.after rs).CORSOrigin = h.CORSOrigin ∧
    (h.after rs).s.engine.memory = h.s.engine.memory := by
  induction rs generalizing h with
  | nil => exact ⟨rfl, rfl, rfl⟩
  | cons r rs ih =>
    have h1 := serve_preserves h r
    have h2 := ih (h.ServeHTTP r).h
    simp only [HandlerFunc.after, List.foldl_cons] at h2 ⊢
    exact ⟨h2.1.trans h1.1, h2.2.1.trans h1.2.1, h2.2.2.trans h1.2.2.1⟩

/-- The entry of one of the header names the handler sets itself is not touched by
the selection of the lines that are written. -/
theorem Values_filter_fixed (hd : Header) :
    Header.Values (hd.filter sendsLine) "Content-Type" = hd.Values "Content-Type" ∧
    Header.Values (hd.filter sendsLine) "Access-Control-Allow-Origin" =
      hd.Values "Access-Control-Allow-Origin" ∧
    Header.Values (hd.filter sendsLine) "Access-Control-Allow-Headers" =
      hd.Values "Access-Control-Allow-Headers" ∧
    Header.Values (hd.filter sendsLine) "Access-Control-Allow-Method" =
      hd.Values "Access-Control-Allow-Method" := by
  unfold Header.Values
  rw [canon_ContentType, canon_AllowOrigin, canon_AllowHeaders, canon_AllowMethod]
  exact ⟨entry_filter_of_pass hd sendsLine _ (fun vs => (sendsLine_fixed vs).1),
    entry_filter_of_pass hd sendsLine _ (fun vs => (sendsLine_fixed vs).2.1),
    entry_filter_of_pass hd sendsLine _ (fun vs => (sendsLine_fixed vs).2.2.1),
    entry_filter_of_pass hd sendsLine _ (fun vs => (sendsLine_fixed vs).2.2.2.1)⟩

/-- Every POST response header is written from the content type and the three CORS
headers set, in this order, on top of at most the token header. -/
theorem post_wire {σ : Type} (h : HandlerFunc σ) (r : http.Request)
    (hPost : r.Method = "POST") :
    ∃ base : Header, (h.ServeHTTP r).w.wire =
      ((((base.Set "Content-Type" "application/json").Set
          "Access-Control-Allow-Origin" h.CORSOrigin).Set
          "Access-Control-Allow-Headers" (r.Header.Get "Access-Control-Request-Headers")).Set
          "Access-Control-Allow-Method" "OPTIONS,POST").filter sendsLine := by
  have hfixed : ∀ w : Header, w =
      [("Access-Control-Allow-Method", ["OPTIONS,POST"]),
       ("Access-Control-Allow-Headers", [r.Header.Get "Access-Control-Request-Headers"]),
       ("Access-Control-Allow-Origin", [h.CORSOrigin]),
       ("Content-Type", ["application/json"])] →
      w = (Header.Set (Header.Set (Header.Set (Header.Set [] "Content-Type" "application/json")
          "Access-Control-Allow-Origin" h.CORSOrigin)
          "Access-Control-Allow-Headers" (r.Header.Get "Access-Control-Request-Headers"))
          "Access-Control-Allow-Method" "OPTIONS,POST").filter sendsLine := by
    intro w hw
    rw [hw]
    simp [Header.Set, canon_ContentType, canon_AllowOrigin, canon_AllowHeaders,
      canon_AllowMethod, sendsLine_fixed]
  rcases validation_cases h.inputName r with hRej | ⟨m, text, hDec, hField, hText⟩
  · exact ⟨[], hfixed _ (post_rejected h r hPost hRej).2.2.2.2⟩
  · cases hErr : (h.s.engine.process h.s.engine.state (requestFor h text r)).err with
    | none => exact ⟨_, (post_accepted_ok h r m text hPost hDec hField hText hErr).2.2.1⟩
    | some e =>
      exact ⟨[], hfixed _ (post_accepted_err h r m text e hPost hDec hField hText hErr).2.2.1⟩

/-- The three CORS headers can be read off a header on which they were set last. -/
theorem cors_values (base : Header) (origin requested : String) :
    (((base.Set "Access-Control-Allow-Origin" origin).Set
        "Access-Control-Allow-Headers" requested).Set
        "Access-Control-Allow-Method" "OPTIONS,POST").Values "Access-Control-Allow-Origin" =
      [origin] ∧
    (((base.Set "Access-Control-Allow-Origin" origin).Set
        "Access-Control-Allow-Headers" requested).Set
        "Access-Control-Allow-Method" "OPTIONS,POST").Values "Access-Control-Allow-Headers" =
      [requested] ∧
    (((base.Set "Access-Control-Allow-Origin" origin).Set
        "Access-Control-Allow-Headers" requested).Set
        "Access-Control-Allow-Method" "OPTIONS,POST").Values "Access-Control-Allow-Method" =
      ["OPTIONS,POST"] := by
  refine ⟨?_, ?_, ?_⟩
  · rw [Values_Set_of_ne _ _ _ _ (by decide), Values_Set_of_ne _ _ _ _ (by decide),
      Values_Set_self]
  · rw [Values_Set_of_ne _ _ _ _ (by decide), Values_Set_self]
  · rw [Values_Set_self]

/-- The number of `Process` calls of an invocation does not depend on the invocations
that run beside it. -/
theorem among_calls {σ : Type} (h : HandlerFunc σ) (r : http.Request)
    (between : List http.Request) :
    (h.ServeAmong r between).calls = (h.ServeHTTP r).calls := by
  by_cases hPost : r.Method = "POST"
  · rcases validation_cases h.inputName r with hRej | ⟨m, text, hDec, hField, hText⟩
    · rw [(among_rejected h r between hPost hRej).2.1, (post_rejected h r hPost hRej).2.1]
    · rw [among_accepted_calls h r between m text hPost hDec hField hText,
        post_accepted_calls h r m text hPost hDec hField hText]
  · by_cases hOpt : r.Method = "OPTIONS"
    · simp [HandlerFunc.ServeAmong, HandlerFunc.ServeHTTP, HandlerFunc.call,
        HandlerFunc.callAmong, hPost, hOpt]
    · simp [HandlerFunc.ServeAmong, HandlerFunc.ServeHTTP, HandlerFunc.call,
        HandlerFunc.callAmong, hPost, hOpt]

/-- The shared variables at the return of an invocation that others ran beside are
those it leaves when it runs alone, changed by the lines 88 to 113 of the others. -/
theorem among_state {σ : Type} (h : HandlerFunc σ) (r : http.Request)
    (between : List http.Request) :
    (h.ServeAmong r between).h = between.foldl HandlerFunc.enter (h.ServeHTTP r).h := by
  by_cases hPost : r.Method = "POST"
  · rcases validation_cases h.inputName r with hRej | ⟨m, text, hDec, hField, hText⟩
    · rw [(among_rejected h r between hPost hRej).1, (post_rejected h r hPost hRej).1]
    · cases hErr : (h.s.engine.process h.s.engine.state (requestFor h text r)).err with
      | none =>
        rw [(among_accepted_ok h r between m text hPost hDec hField hText hErr).2.2.2,
          (post_accepted_ok h r m text hPost hDec hField hText hErr).2.2.2]
      | some e =>
        have hk := (among_accepted_err h r [] m text e hPost hDec hField hText hErr).2.2.2
        have hh : (h.ServeHTTP r).h = _ := hk
        rw [(among_accepted_err h r between m text e hPost hDec hField hText hErr).2.2.2, hh]
        rfl
  · by_cases hOpt : r.Method = "OPTIONS"
    · simp [HandlerFunc.ServeAmong, HandlerFunc.ServeHTTP, HandlerFunc.call,
        HandlerFunc.callAmong, hPost, hOpt]
    · simp [HandlerFunc.ServeAmong, HandlerFunc.ServeHTTP, HandlerFunc.call,
        HandlerFunc.callAmong, hPost, hOpt]


/-- The status and the header lines of a response do not depend on the invocations
that run beside the one that writes it; only the message of a failure envelope
does. -/
theorem among_status_wire {σ : Type} (h : HandlerFunc σ) (r : http.Request)
    (between : List http.Request) :
    (h.ServeAmong r between).w.status = (h.ServeHTTP r).w.status ∧
    (h.ServeAmong r between).w.wire = (h.ServeHTTP r).w.wire := by
  by_cases hPost : r.Method = "POST"
  · rcases validation_cases h.inputName r with hRej | ⟨m, text, hDec, hField, hText⟩
    · have h1 := among_rejected h r between hPost hRej
      have h2 := post_rejected h r hPost hRej
      exact ⟨h1.2.2.1.trans h2.2.2.1.symm, h1.2.2.2.2.trans h2.2.2.2.2.symm⟩
    · cases hErr : (h.s.engine.process h.s.engine.state (requestFor h text r)).err with
      | none =>
        have h1 := among_accepted_ok h r between m text hPost hDec hField hText hErr
        have h2 := post_accepted_ok h r m text hPost hDec hField hText hErr
        exact ⟨h1.1.trans h2.1.symm, h1.2.2.1.trans h2.2.2.1.symm⟩
      | some e =>
        have h1 := among_accepted_err h r between m text e hPost hDec hField hText hErr
        have h2 := post_accepted_err h r m text e hPost hDec hField hText hErr
        exact ⟨h1.1.trans h2.1.symm, h1.2.2.1.trans h2.2.2.1.symm⟩
  · by_cases hOpt : r.Method = "OPTIONS"
    · simp [HandlerFunc.ServeAmong, HandlerFunc.ServeHTTP, HandlerFunc.call,
        HandlerFunc.callAmong, hPost, hOpt]
    · simp [HandlerFunc.ServeAmong, HandlerFunc.ServeHTTP, HandlerFunc.call,
        HandlerFunc.callAmong, hPost, hOpt]

/-! ## The claims -/

/-- On a handler fresh from `processHandler`, a POST that fails decoding or validation
is answered with status 400 and the mandatory-field message of the input name. -/
theorem fresh_handler_rejects {σ : Type} (inputName endpoint CORSOrigin : String)
    (s : server σ) (r : http.Request) (hPost : r.Method = "POST")
    (hRej : (Unmarshal r.Body).2 ≠ none ∨
      ((Unmarshal r.Body).1.index inputName).2 = false ∨
      ((Unmarshal r.Body).1.index inputName).1.data.all isSpace = true) :
    ((processHandler inputName endpoint CORSOrigin s).ServeHTTP r).w.status = 400 ∧
    ((processHandler inputName endpoint CORSOrigin s).ServeHTTP r).w.body =
      [Chunk.json (JSON.obj [("error", JSON.bool true),
        ("message", JSON.str (inputName ++ " field is mandatory and can not be empty"))])] := by
  have h := post_rejected (processHandler inputName endpoint CORSOrigin s) r hPost hRej
  exact ⟨h.2.2.1, h.2.2.2.1⟩

/-- C1, evaluated at the failing sequence. On the handler for the field `text` whose
engine fails with `backend unavailable`, a POST of `{}` that is served after a POST of
`{"text":"hi"}` gets status 400 with the message `backend unavailable`, whereas the
same POST served first gets the message `text field is mandatory and can not be
empty`: the assignment to the captured `errorText` outlives the request. -/
theorem C1_stale_errorText_after_processor_error :
    (((failingHandler none).after [request "POST" [] (textBody "hi")]).ServeHTTP
        (request "POST" [] (some (JSON.obj [])))).w.status = 400 ∧
    (((failingHandler none).after [request "POST" [] (textBody "hi")]).ServeHTTP
        (request "POST" [] (some (JSON.obj [])))).w.body =
      [Chunk.json (JSON.obj [("error", JSON.bool true),
        ("message", JSON.str "backend unavailable")])] ∧
    ((failingHandler none).ServeHTTP (request "POST" [] (some (JSON.obj [])))).w.body =
      [Chunk.json (JSON.obj [("error", JSON.bool true),
        ("message", JSON.str "text field is mandatory and can not be empty")])] ∧
    "backend unavailable" ≠ "text" ++ " field is mandatory and can not be empty" := by
  refine ⟨rfl, rfl, rfl, by decide⟩

/-- C2, as worded, fails for data that `json.Marshal` refuses. On the handler whose
engine returns, with no error, data that does not encode (a NaN), a POST of
`{"text":"hi"}` is processed and gets status 200 with an empty body: the error of
`json.Marshal` is discarded at line 126 and no bytes are written. -/
theorem C2_counterexample :
    (nanHandler.ServeHTTP (request "POST" [] (textBody "hi"))).calls =
      [{ Text := "hi", Token := "", Request := request "POST" [] (textBody "hi") }] ∧
    (nanEngine.process 0
      { Text := "hi", Token := "", Request := request "POST" [] (textBody "hi") }).err = none ∧
    (nanEngine.process 0
      { Text := "hi", Token := "", Request := request "POST" [] (textBody "hi") }).data =
      Value.unsupported ∧
    (nanHandler.ServeHTTP (request "POST" [] (textBody "hi"))).w.status = 200 ∧
    (nanHandler.ServeHTTP (request "POST" [] (textBody "hi"))).w.body = [] := by
  refine ⟨rfl, rfl, rfl, rfl, rfl⟩

/-- C2, amended. A POST whose body decodes to a string map in which the input field
holds a text that is non-empty after trimming, and for which `Process` returns, with
no error, `dataType` and a `data` that `json.Marshal` encodes, gets status 200 and the
body that is the JSON object with exactly the members `data`, `error = false` and
`type = dataType`; this holds whatever other invocations run beside this one. -/
theorem C2_success_envelope {σ : Type} (h : HandlerFunc σ) (r : http.Request)
    (between : List http.Request) (m : StringMap) (text : String) (data : JSON)
    (hPost : r.Method = "POST") (hDec : Unmarshal r.Body = (m, none))
    (hField : m.index h.inputName = (text, true))
    (hText : 0 < RuneCountInString (TrimSpace text))
    (hOk : (h.s.engine.process h.s.engine.state (requestFor h text r)).err = none)
    (hData : (h.s.engine.process h.s.engine.state (requestFor h text r)).data =
      Value.encodable data) :
    (h.ServeAmong r between).w.status = 200 ∧
    (h.ServeAmong r between).w.body = [Chunk.json (JSON.obj
      [("data", data),
       ("error", JSON.bool false),
       ("type", JSON.str
         (h.s.engine.process h.s.engine.state (requestFor h text r)).dataType)])] := by
  have hk := among_accepted_ok h r between m text hPost hDec hField hText hOk
  refine ⟨hk.1, ?_⟩
  rw [hk.2.1, hData, Marshal_success]
  rfl

/-- Witness of C2 (amended): the text `  hello  ` sent to the echo handler while
another POST is being served. -/
theorem C2_success_envelope_witness :
    (request "POST" [] (textBody "  hello  ")).Method = "POST" ∧
    Unmarshal (request "POST" [] (textBody "  hello  ")).Body = ([("text", "  hello  ")], none) ∧
    StringMap.index [("text", "  hello  ")] (echoHandler none).inputName = ("  hello  ", true) ∧
    0 < RuneCountInString (TrimSpace "  hello  ") ∧
    ((echoHandler none).ServeAmong (request "POST" [] (textBody "  hello  "))
      [request "POST" [] (textBody "other")]).w.status = 200 ∧
    ((echoHandler none).ServeAmong (request "POST" [] (textBody "  hello  "))
      [request "POST" [] (textBody "other")]).w.body =
      [Chunk.json (JSON.obj [("data", JSON.str "hello"), ("error", JSON.bool false),
        ("type", JSON.str "echo")])] :=
  ⟨rfl, rfl, rfl, by decide,
    C2_success_envelope (echoHandler none) (request "POST" [] (textBody "  hello  "))
      [request "POST" [] (textBody "other")]
      [("text", "  hello  ")] "  hello  " (JSON.str "hello") rfl rfl rfl (by decide) rfl rfl⟩

/-- C3, evaluated at the failing schedule. On the handler whose engine fails with
`failed: ` followed by the text, the invocation for `{"text":"A"}` calls `Process`
once, with the text `A`, and gets the error `failed: A`; when the invocation for
`{"text":"B"}` runs its lines 88 to 113 before the first one reaches line 115, the
response to `A` has status 400 and the message `failed: B`, whereas served alone it
has the message `failed: A`: both invocations assign the one captured `errorText`. -/
theorem C3_message_of_concurrent_request :
    (refusingHandler.ServeAmong (request "POST" [] (textBody "A"))
      [request "POST" [] (textBody "B")]).calls =
      [{ Text := "A", Token := "", Request := request "POST" [] (textBody "A") }] ∧
    (refusingEngine.process 0
      { Text := "A", Token := "", Request := request "POST" [] (textBody "A") }).err =
      some "failed: A" ∧
    (refusingHandler.ServeAmong (request "POST" [] (textBody "A"))
      [request "POST" [] (textBody "B")]).w.status = 400 ∧
    (refusingHandler.ServeAmong (request "POST" [] (textBody "A"))
      [request "POST" [] (textBody "B")]).w.body =
      [Chunk.json (JSON.obj [("error", JSON.bool true), ("message", JSON.str "failed: B")])] ∧
    (refusingHandler.ServeHTTP (request "POST" [] (textBody "A"))).w.body =
      [Chunk.json (JSON.obj [("error", JSON.bool true), ("message", JSON.str "failed: A")])] := by
  refine ⟨rfl, by decide, rfl, rfl, rfl⟩

/-- C4, as worded, fails in both directions on the echo handler for the field `text`.
The object `{"text":"hi","n":1}` holds the field with the printable text `hi`, yet
`Process` is not called (the numeric member makes decoding into a string map fail);
the object `{"text":"\u0001"}` holds no printable character in the field, yet
`Process` is called (a control character is not white space and counts as a rune). -/
theorem C4_counterexample :
    (specAccepts "text" [("text", JSON.str "hi"), ("n", JSON.num 1 0)] = true ∧
      ((echoHandler none).ServeHTTP (request "POST" []
        (some (JSON.obj [("text", JSON.str "hi"), ("n", JSON.num 1 0)])))).calls = []) ∧
    (specAccepts "text" [("text", JSON.str "\x01")] = false ∧
      ((echoHandler none).ServeHTTP (request "POST" []
        (some (JSON.obj [("text", JSON.str "\x01")])))).calls =
        [{ Text := "\x01", Token := "",
           Request := request "POST" [] (some (JSON.obj [("text", JSON.str "\x01")])) }]) := by
  refine ⟨⟨by decide, rfl⟩, ⟨by decide, rfl⟩⟩

/-- C4, amended. For a POST whose body is a JSON object, `Process` is called if and
only if every member value of the object is a string or `null` and the input field is
present (its last member counts) with a string value that, after trimming leading
and trailing white space, holds at least one code point. -/
theorem C4_acceptance_criterion {σ : Type} (h : HandlerFunc σ) (r : http.Request)
    (members : List (String × JSON)) (hPost : r.Method = "POST")
    (hBody : r.Body = some (JSON.obj members)) :
    (h.ServeHTTP r).calls ≠ [] ↔
      ((∀ p ∈ members, p.2 = JSON.null ∨ ∃ s, p.2 = JSON.str s) ∧
        ∃ s, lastMember members h.inputName = some (JSON.str s) ∧
          0 < RuneCountInString (TrimSpace s)) := by
  have hrej : ∀ hR : ((Unmarshal r.Body).2 ≠ none ∨
      ((Unmarshal r.Body).1.index h.inputName).2 = false ∨
      ((Unmarshal r.Body).1.index h.inputName).1.data.all isSpace = true),
      (h.ServeHTTP r).calls = [] := fun hR => (post_rejected h r hPost hR).2.1
  by_cases hStr : ∀ p ∈ members, p.2 = JSON.null ∨ ∃ s, p.2 = JSON.str s
  · rw [and_iff_right hStr]
    have hdec := decodeMembers_strings members h.inputName [] hStr
    have hU : Unmarshal r.Body = ((decodeMembers members [] none).1, none) := by
      rw [hBody]
      show decodeMembers members [] none = _
      exact Prod.ext rfl hdec.1
    cases hl : lastMember members h.inputName with
    | none =>
      have hidx := hdec.2
      rw [hl] at hidx
      constructor
      · intro hc
        exact absurd (hrej (Or.inr (Or.inl (by rw [hU]; simp only; rw [hidx]; rfl)))) hc
      · rintro ⟨s, hs, _⟩
        exact absurd hs (by simp)
    | some v =>
      have hidx := hdec.2
      rw [hl] at hidx
      simp only at hidx
      rcases hStr (h.inputName, v) (lastMember_mem members h.inputName v hl) with hn | ⟨s, hs⟩
      · simp only at hn
        subst hn
        constructor
        · intro hc
          refine absurd (hrej (Or.inr (Or.inr ?_))) hc
          rw [hU]
          simp only
          rw [hidx]
          rfl
        · rintro ⟨s, hs, _⟩
          exact absurd hs (by simp)
      · simp only at hs
        subst hs
        have hidx1 : (decodeMembers members [] none).1.index h.inputName = (s, true) := hidx
        by_cases hpos : 0 < RuneCountInString (TrimSpace s)
        · constructor
          · intro _
            exact ⟨s, rfl, hpos⟩
          · intro _
            rw [post_accepted_calls h r _ s hPost hU hidx1 hpos]
            simp
        · constructor
          · intro hc
            refine absurd (hrej (Or.inr (Or.inr ?_))) hc
            rw [hU]
            simp only
            rw [hidx1]
            exact (runeCount_trim_eq_zero_iff s).mp (Nat.eq_zero_of_not_pos hpos)
          · rintro ⟨s1, hs1, hp1⟩
            simp only [Option.some.injEq, JSON.str.injEq] at hs1
            subst hs1
            exact absurd hp1 hpos
  · have hbad : ∃ p ∈ members, ¬ (p.2 = JSON.null ∨ ∃ s, p.2 = JSON.str s) := by
      by_contra hno
      exact hStr (fun p hp => by_contra (fun hp1 => hno ⟨p, hp, hp1⟩))
    have hU : (Unmarshal r.Body).2 ≠ none := by
      rw [hBody]
      exact decodeMembers_mismatch members [] none hbad
    constructor
    · intro hc
      exact absurd (hrej (Or.inl hU)) hc
    · rintro ⟨hall, _⟩
      exact absurd hall hStr

/-- Witness of C4 (amended): the object `{"text":" hi "}` sent to the echo handler is
accepted. -/
theorem C4_acceptance_criterion_witness :
    (request "POST" [] (textBody " hi ")).Method = "POST" ∧
    (request "POST" [] (textBody " hi ")).Body = some (JSON.obj [("text", JSON.str " hi ")]) ∧
    (((echoHandler none).ServeHTTP (request "POST" [] (textBody " hi "))).calls ≠ [] ↔
      ((∀ p ∈ [("text", JSON.str " hi ")], p.2 = JSON.null ∨ ∃ s, p.2 = JSON.str s) ∧
        ∃ s, lastMember [("text", JSON.str " hi ")] (echoHandler none).inputName =
            some (JSON.str s) ∧
          0 < RuneCountInString (TrimSpace s))) :=
  ⟨rfl, rfl,
    C4_acceptance_criterion (echoHandler none) (request "POST" [] (textBody " hi "))
      [("text", JSON.str " hi ")] rfl rfl⟩

/-- C5. For a POST whose input field passes validation, `Process` is applied exactly
once, to the Request whose text is the trimmed field value (a non-empty text): the
call is logged once, the engine is left in the state that this one application
yields, and the status, the body and the captured `errorText` are those of its
result. For a POST that fails decoding or validation, and for OPTIONS or any other
method, `Process` is not applied: nothing is logged and the closure, engine
included, is as it was. The log never holds more than one call; and when other
invocations run beside this one, its log is the same and the shared variables at
its return are those it leaves alone, changed by the others only. -/
theorem C5_process_called_once_or_never {σ : Type} (h : HandlerFunc σ) (r : http.Request) :
    (∀ m text, r.Method = "POST" → Unmarshal r.Body = (m, none) →
      m.index h.inputName = (text, true) → 0 < RuneCountInString (TrimSpace text) →
      (h.ServeHTTP r).calls = [requestFor h text r] ∧
      (requestFor h text r).Text = TrimSpace text ∧
      (requestFor h text r).Text ≠ "" ∧
      (h.ServeHTTP r).h.s.engine.state =
        (h.s.engine.process h.s.engine.state (requestFor h text r)).state ∧
      (h.ServeHTTP r).w.status =
        (match (h.s.engine.process h.s.engine.state (requestFor h text r)).err with
         | some _ => 400
         | none => 200) ∧
      (h.ServeHTTP r).w.body =
        (match (h.s.engine.process h.s.engine.state (requestFor h text r)).err with
         | some e => [Chunk.json (JSON.obj
             [("error", JSON.bool true), ("message", JSON.str e)])]
         | none => ((Marshal (some [("error", Value.encodable (JSON.bool false)),
             ("type", Value.encodable (JSON.str
               (h.s.engine.process h.s.engine.state (requestFor h text r)).dataType)),
             ("data", (h.s.engine.process h.s.engine.state (requestFor h text r)).data)])).1.map
             Chunk.json).toList) ∧
      (h.ServeHTTP r).h.errorText =
        (match (h.s.engine.process h.s.engine.state (requestFor h text r)).err with
         | some e => e
         | none => h.errorText)) ∧
    (r.Method = "POST" →
      ((Unmarshal r.Body).2 ≠ none ∨
        ((Unmarshal r.Body).1.index h.inputName).2 = false ∨
        ((Unmarshal r.Body).1.index h.inputName).1.data.all isSpace = true) →
      (h.ServeHTTP r).calls = [] ∧ (h.ServeHTTP r).h = h) ∧
    (r.Method ≠ "POST" → (h.ServeHTTP r).calls = [] ∧ (h.ServeHTTP r).h = h) ∧
    (h.ServeHTTP r).calls.length ≤ 1 ∧
    (∀ between, (h.ServeAmong r between).calls = (h.ServeHTTP r).calls ∧
      (h.ServeAmong r between).h = between.foldl HandlerFunc.enter (h.ServeHTTP r).h) := by
  have hText : ∀ text, (requestFor h text r).Text = TrimSpace text := by
    intro text
    unfold requestFor
    cases h.s.engine.memory <;> rfl
  have hNot : r.Method ≠ "POST" → (h.ServeHTTP r).calls = [] ∧ (h.ServeHTTP r).h = h := by
    intro hne
    by_cases hOpt : r.Method = "OPTIONS"
    · rw [options_served h r hOpt]
      exact ⟨rfl, rfl⟩
    · rw [other_served h r hne hOpt]
      exact ⟨rfl, rfl⟩
  refine ⟨?_, ?_, hNot, ?_, fun between => ⟨among_calls h r between, among_state h r between⟩⟩
  · intro m text hPost hDec hField hPos
    refine ⟨post_accepted_calls h r m text hPost hDec hField hPos, hText text, ?_, ?_⟩
    · rw [hText text]
      intro hEmpty
      rw [hEmpty] at hPos
      exact absurd hPos (by decide)
    · have hf := decodeAndProcess_accepted
        ({ h := h, w := ResponseWriter.fresh, response := none, status := 0, calls := [] } :
          Frame σ) r m text hDec hField hPos
      simp only [HandlerFunc.ServeHTTP, HandlerFunc.call, HandlerFunc.callAmong, hPost, if_true,
        hf, processText, Engine.Process, List.foldl_nil, orFailure, writeResponse]
      cases hErr : (h.s.engine.process h.s.engine.state (requestFor h text r)).err with
      | none =>
        cases h.s.engine.memory <;>
          simp [ResponseWriter.HeaderSet, ResponseWriter.WriteHeader, ResponseWriter.Write,
            addCORS, ResponseWriter.fresh]
      | some e =>
        simp [ResponseWriter.HeaderSet, ResponseWriter.WriteHeader, ResponseWriter.Write,
          addCORS, ResponseWriter.fresh, Marshal_failure]
  · intro hPost hRej
    exact ⟨(post_rejected h r hPost hRej).2.1, (post_rejected h r hPost hRej).1⟩
  · by_cases hPost : r.Method = "POST"
    · rcases validation_cases h.inputName r with hRej | ⟨m, text, hDec, hField, hPos⟩
      · rw [(post_rejected h r hPost hRej).2.1]
        exact Nat.zero_le _
      · rw [post_accepted_calls h r m text hPost hDec hField hPos]
        exact Nat.le_refl _
    · rw [(hNot hPost).1]
      exact Nat.zero_le _

/-- Witness of C5: for the body `{"text":"  hello  "}` the echo engine, which counts
its calls in its state, is called once with the text `hello` and left in state 1. -/
theorem C5_process_called_once_or_never_witness :
    (request "POST" [] (textBody "  hello  ")).Method = "POST" ∧
    Unmarshal (request "POST" [] (textBody "  hello  ")).Body = ([("text", "  hello  ")], none) ∧
    StringMap.index [("text", "  hello  ")] (echoHandler none).inputName = ("  hello  ", true) ∧
    0 < RuneCountInString (TrimSpace "  hello  ") ∧
    ((echoHandler none).ServeHTTP (request "POST" [] (textBody "  hello  "))).calls =
      [{ Text := "hello", Token := "", Request := request "POST" [] (textBody "  hello  ") }] ∧
    ((echoHandler none).ServeHTTP (request "POST" [] (textBody "  hello  "))).h.s.engine.state =
      1 :=
  ⟨rfl, rfl, rfl, by decide,
    ((C5_process_called_once_or_never (echoHandler none)
      (request "POST" [] (textBody "  hello  "))).1
      [("text", "  hello  ")] "  hello  " rfl rfl rfl (by decide)).1,
    ((C5_process_called_once_or_never (echoHandler none)
      (request "POST" [] (textBody "  hello  "))).1
      [("text", "  hello  ")] "  hello  " rfl rfl rfl (by decide)).2.2.2.1⟩

/-- C6, as worded, fails in four ways, each on a POST of `{"text":"hello"}` that is
processed with the inbound token and answered with status 200. With the token header
`Content-Type` the returned token `tok+1` is overwritten: the response carries
`Content-Type: application/json`. With the token header `Content-Length` the
returned token `16+1` does not parse and the line is not sent. With the token header
`x token`, not a valid field name, the line is not sent. With the token header
`X-Token` and an engine that returns the token `tok ` (with a space at its end) the
response carries `X-Token: tok`. -/
theorem C6_counterexample :
    (((echoHandler (some { TokenHeader := "Content-Type" })).ServeHTTP
        (request "POST" [("Content-Type", ["tok"])] (textBody "hello"))).calls =
      [{ Text := "hello", Token := "tok",
         Request := request "POST" [("Content-Type", ["tok"])] (textBody "hello") }] ∧
      ((echoEngine (some { TokenHeader := "Content-Type" })).process 0
        { Text := "hello", Token := "tok",
          Request := request "POST" [("Content-Type", ["tok"])] (textBody "hello") }).req.Token
        = "tok+1" ∧
      ((echoHandler (some { TokenHeader := "Content-Type" })).ServeHTTP
        (request "POST" [("Content-Type", ["tok"])] (textBody "hello"))).w.status = 200 ∧
      ((echoHandler (some { TokenHeader := "Content-Type" })).ServeHTTP
        (request "POST" [("Content-Type", ["tok"])] (textBody "hello"))).w.sent.Values
        "Content-Type" = ["application/json"]) ∧
    (((echoEngine (some { TokenHeader := "Content-Length" })).process 0
        { Text := "hello", Token := "16",
          Request := request "POST" [("Content-Length", ["16"])] (textBody "hello") }).req.Token
        = "16+1" ∧
      ((echoHandler (some { TokenHeader := "Content-Length" })).ServeHTTP
        (request "POST" [("Content-Length", ["16"])] (textBody "hello"))).w.status = 200 ∧
      ((echoHandler (some { TokenHeader := "Content-Length" })).ServeHTTP
        (request "POST" [("Content-Length", ["16"])] (textBody "hello"))).w.sent.Values
        "Content-Length" = []) ∧
    (((echoEngine (some { TokenHeader := "x token" })).process 0
        { Text := "hello", Token := "tok",
          Request := request "POST" [("x token", ["tok"])] (textBody "hello") }).req.Token
        = "tok+1" ∧
      ((echoHandler (some { TokenHeader := "x token" })).ServeHTTP
        (request "POST" [("x token", ["tok"])] (textBody "hello"))).w.status = 200 ∧
      ((echoHandler (some { TokenHeader := "x token" })).ServeHTTP
        (request "POST" [("x token", ["tok"])] (textBody "hello"))).w.sent.Values
        "x token" = []) ∧
    (((paddingEngine (some { TokenHeader := "X-Token" })).process 0
        { Text := "hello", Token := "tok",
          Request := request "POST" [("X-Token", ["tok"])] (textBody "hello") }).req.Token
        = "tok " ∧
      ((paddingHandler (some { TokenHeader := "X-Token" })).ServeHTTP
        (request "POST" [("X-Token", ["tok"])] (textBody "hello"))).w.status = 200 ∧
      ((paddingHandler (some { TokenHeader := "X-Token" })).ServeHTTP
        (request "POST" [("X-Token", ["tok"])] (textBody "hello"))).w.sent.Values
        "X-Token" = ["tok"]) := by
  refine ⟨⟨rfl, by decide, rfl, by decide⟩, ⟨by decide, rfl, by decide⟩,
    ⟨by decide, rfl, by decide⟩, ⟨by decide, rfl, by decide⟩⟩

/-- C6, amended. With a memory service whose token header is `H`, the Request of an
accepted POST is processed with the token `r.Header.Get H`. If `Process` succeeds,
the canonical form of `H` is a valid header field name, it is none of the headers
the handler sets itself (`Content-Type`, `Access-Control-Allow-Origin`,
`Access-Control-Allow-Headers`, `Access-Control-Allow-Method`) nor one that
`net/http` manages (`Content-Length`, `Transfer-Encoding`, `Connection`,
`Trailer`), and the token the Request holds when `Process` returns is a plain header
value (no control character, no space at either end), then the response carries
under `H` exactly that token. This holds whatever other invocations run beside this
one. -/
theorem C6_token_relayed {σ : Type} (h : HandlerFunc σ) (r : http.Request)
    (between : List http.Request) (m : StringMap)
    (text : String) (mem : MemoryService) (hMem : h.s.engine.memory = some mem)
    (hPost : r.Method = "POST") (hDec : Unmarshal r.Body = (m, none))
    (hField : m.index h.inputName = (text, true))
    (hText : 0 < RuneCountInString (TrimSpace text)) :
    (h.ServeAmong r between).calls =
      [{ Text := TrimSpace text, Token := r.Header.Get mem.TokenHeader, Request := r }] ∧
    ((h.s.engine.process h.s.engine.state
        { Text := TrimSpace text, Token := r.Header.Get mem.TokenHeader, Request := r }).err
        = none →
      ValidHeaderFieldName (CanonicalMIMEHeaderKey mem.TokenHeader) = true →
      CanonicalMIMEHeaderKey mem.TokenHeader ∉
        ["Content-Type", "Access-Control-Allow-Origin", "Access-Control-Allow-Headers",
         "Access-Control-Allow-Method", "Content-Length", "Transfer-Encoding",
         "Connection", "Trailer"] →
      plainValue (h.s.engine.process h.s.engine.state
        { Text := TrimSpace text, Token := r.Header.Get mem.TokenHeader,
          Request := r }).req.Token = true →
      (h.ServeAmong r between).w.sent.Values mem.TokenHeader =
        [(h.s.engine.process h.s.engine.state
          { Text := TrimSpace text, Token := r.Header.Get mem.TokenHeader,
            Request := r }).req.Token]) := by
  have hreq : requestFor h text r =
      { Text := TrimSpace text, Token := r.Header.Get mem.TokenHeader, Request := r } := by
    unfold requestFor
    rw [hMem]
    rfl
  refine ⟨?_, ?_⟩
  · rw [among_accepted_calls h r between m text hPost hDec hField hText, hreq]
  · intro hOk hValid hFree hPlain
    rw [← hreq] at hOk hPlain ⊢
    simp only [List.mem_cons, List.mem_singleton, List.not_mem_nil, or_false, not_or] at hFree
    obtain ⟨h1, h2, h3, h4, h5, h6, h7, h8⟩ := hFree
    have hwire := (among_accepted_ok h r between m text hPost hDec hField hText hOk).2.2.1
    rw [hMem] at hwire
    simp only at hwire
    unfold ResponseWriter.sent Header.Values
    rw [entry_map_values, hwire,
      entry_filter_of_pass _ sendsLine _
        (fun vs => sendsLine_of_name _ vs hValid h6 h7 h8 h5)]
    have hval := Values_Set_self ([] : Header) mem.TokenHeader
      (h.s.engine.process h.s.engine.state (requestFor h text r)).req.Token
    have hchain : Header.Values
        (Header.Set (Header.Set (Header.Set (Header.Set
          (Header.Set [] mem.TokenHeader
            (h.s.engine.process h.s.engine.state (requestFor h text r)).req.Token)
          "Content-Type" "application/json")
          "Access-Control-Allow-Origin" h.CORSOrigin)
          "Access-Control-Allow-Headers" (r.Header.Get "Access-Control-Request-Headers"))
          "Access-Control-Allow-Method" "OPTIONS,POST") mem.TokenHeader =
        [(h.s.engine.process h.s.engine.state (requestFor h text r)).req.Token] := by
      rw [Values_Set_of_ne _ _ _ _ (by rw [canon_AllowMethod]; exact h4),
        Values_Set_of_ne _ _ _ _ (by rw [canon_AllowHeaders]; exact h3),
        Values_Set_of_ne _ _ _ _ (by rw [canon_AllowOrigin]; exact h2),
        Values_Set_of_ne _ _ _ _ (by rw [canon_ContentType]; exact h1),
        Values_Set_self]
    unfold Header.Values at hchain
    rw [hchain, List.map_cons, List.map_nil, sanitizeValue_plain _ hPlain]

/-- Witness of C6 (amended): the token header `X-Token` with the inbound value `tok`
and the echo engine; the response carries `X-Token: tok+1`. -/
theorem C6_token_relayed_witness :
    (echoHandler (some { TokenHeader := "X-Token" })).s.engine.memory =
      some { TokenHeader := "X-Token" } ∧
    (request "POST" [("X-Token", ["tok"])] (textBody "hello")).Method = "POST" ∧
    Unmarshal (request "POST" [("X-Token", ["tok"])] (textBody "hello")).Body =
      ([("text", "hello")], none) ∧
    StringMap.index [("text", "hello")]
      (echoHandler (some { TokenHeader := "X-Token" })).inputName = ("hello", true) ∧
    0 < RuneCountInString (TrimSpace "hello") ∧
    ValidHeaderFieldName (CanonicalMIMEHeaderKey "X-Token") = true ∧
    CanonicalMIMEHeaderKey "X-Token" ∉
      ["Content-Type", "Access-Control-Allow-Origin", "Access-Control-Allow-Headers",
       "Access-Control-Allow-Method", "Content-Length", "Transfer-Encoding",
       "Connection", "Trailer"] ∧
    plainValue "tok+1" = true ∧
    ((echoHandler (some { TokenHeader := "X-Token" })).ServeAmong
        (request "POST" [("X-Token", ["tok"])] (textBody "hello"))
        [request "POST" [("X-Token", ["other"])] (textBody "B")]).w.sent.Values "X-Token" =
      ["tok+1"] :=
  ⟨rfl, rfl, rfl, rfl, by decide, by decide, by decide, by decide,
    (C6_token_relayed (echoHandler (some { TokenHeader := "X-Token" }))
      (request "POST" [("X-Token", ["tok"])] (textBody "hello"))
      [request "POST" [("X-Token", ["other"])] (textBody "B")] [("text", "hello")] "hello"
      { TokenHeader := "X-Token" } rfl rfl rfl rfl (by decide)).2 rfl (by decide) (by decide)
      (by decide)⟩

/-- C7. When the engine has no memory service, or the request is not a POST, or it
fails decoding or validation, or `Process` returns an error, the response header is
exactly the one the handler sets for the method (content type and CORS headers for a
POST, CORS headers for OPTIONS, the headers of `http.NotFound` otherwise) and holds
no token entry; and without a memory service every Request is processed as
`NewRequest` built it, with the empty token. -/
theorem C7_token_header_on_success_only {σ : Type} (h : HandlerFunc σ) (r : http.Request)
    (hCase : h.s.engine.memory = none ∨ r.Method ≠ "POST" ∨
      (Unmarshal r.Body).2 ≠ none ∨
      ((Unmarshal r.Body).1.index h.inputName).2 = false ∨
      ((Unmarshal r.Body).1.index h.inputName).1.data.all isSpace = true ∨
      (h.s.engine.process h.s.engine.state
        (requestFor h ((Unmarshal r.Body).1.index h.inputName).1 r)).err ≠ none) :
    (h.s.engine.memory = none → ∀ req ∈ (h.ServeHTTP r).calls,
      req.Token = "" ∧ ∃ text, req = NewRequest (TrimSpace text) r) ∧
    (h.ServeHTTP r).w.wire =
      (if r.Method = "POST" then
        [("Access-Control-Allow-Method", ["OPTIONS,POST"]),
         ("Access-Control-Allow-Headers", [r.Header.Get "Access-Control-Request-Headers"]),
         ("Access-Control-Allow-Origin", [h.CORSOrigin]),
         ("Content-Type", ["application/json"])]
      else if r.Method = "OPTIONS" then
        [("Access-Control-Allow-Method", ["OPTIONS,POST"]),
         ("Access-Control-Allow-Headers", [r.Header.Get "Access-Control-Request-Headers"]),
         ("Access-Control-Allow-Origin", [h.CORSOrigin])]
      else
        [("X-Content-Type-Options", ["nosniff"]),
         ("Content-Type", ["text/plain; charset=utf-8"])]) := by
  by_cases hPost : r.Method = "POST"
  · simp only [hPost, if_true]
    rcases validation_cases h.inputName r with hRej | ⟨m, text, hDec, hField, hPos⟩
    · have hk := post_rejected h r hPost hRej
      refine ⟨fun _ req hreq => ?_, hk.2.2.2.2⟩
      rw [hk.2.1] at hreq
      exact absurd hreq (List.not_mem_nil _)
    · have hcalls := post_accepted_calls h r m text hPost hDec hField hPos
      have htok : h.s.engine.memory = none → ∀ req ∈ (h.ServeHTTP r).calls,
          req.Token = "" ∧ ∃ text, req = NewRequest (TrimSpace text) r := by
        intro hMem req hreq
        rw [hcalls, List.mem_singleton] at hreq
        have hnew : requestFor h text r = NewRequest (TrimSpace text) r := by
          unfold requestFor
          rw [hMem]
        rw [hreq, hnew]
        exact ⟨rfl, text, rfl⟩
      refine ⟨htok, ?_⟩
      cases hErr : (h.s.engine.process h.s.engine.state (requestFor h text r)).err with
      | some e => exact (post_accepted_err h r m text e hPost hDec hField hPos hErr).2.2.1
      | none =>
        have hMem : h.s.engine.memory = none := by
          rw [hDec] at hCase
          simp only [hField] at hCase
          rcases hCase with h1 | h1 | h1 | h1 | h1 | h1
          · exact h1
          · exact absurd hPost h1
          · exact absurd rfl h1
          · exact absurd h1 (by simp)
          · rw [(runeCount_trim_eq_zero_iff text).mpr h1] at hPos
            exact absurd hPos (by decide)
          · exact absurd hErr h1
        rw [(post_accepted_ok h r m text hPost hDec hField hPos hErr).2.2.1, hMem]
        simp [Header.Set, canon_ContentType, canon_AllowOrigin, canon_AllowHeaders,
          canon_AllowMethod, sendsLine_fixed]
  · rw [if_neg hPost]
    by_cases hOpt : r.Method = "OPTIONS"
    · rw [if_pos hOpt, options_served h r hOpt]
      exact ⟨fun _ req hreq => absurd hreq (List.not_mem_nil _), rfl⟩
    · rw [if_neg hOpt, other_served h r hPost hOpt]
      exact ⟨fun _ req hreq => absurd hreq (List.not_mem_nil _), rfl⟩

/-- Witness of C7: the handler with the token header `X-Token` whose engine fails; the
response to a valid POST that carries a token holds the four fixed headers only. -/
theorem C7_token_header_on_success_only_witness :
    ((failingHandler (some { TokenHeader := "X-Token" })).s.engine.process
        (failingHandler (some { TokenHeader := "X-Token" })).s.engine.state
        (requestFor (failingHandler (some { TokenHeader := "X-Token" }))
          ((Unmarshal (request "POST" [("X-Token", ["tok"])] (textBody "hello")).Body).1.index
            (failingHandler (some { TokenHeader := "X-Token" })).inputName).1
          (request "POST" [("X-Token", ["tok"])] (textBody "hello")))).err ≠ none ∧
    ((failingHandler (some { TokenHeader := "X-Token" })).ServeHTTP
        (request "POST" [("X-Token", ["tok"])] (textBody "hello"))).w.wire =
      [("Access-Control-Allow-Method", ["OPTIONS,POST"]),
       ("Access-Control-Allow-Headers", [""]),
       ("Access-Control-Allow-Origin", ["*"]),
       ("Content-Type", ["application/json"])] :=
  ⟨by decide,
    (C7_token_header_on_success_only (failingHandler (some { TokenHeader := "X-Token" }))
      (request "POST" [("X-Token", ["tok"])] (textBody "hello"))
      (Or.inr (Or.inr (Or.inr (Or.inr (Or.inr (by decide))))))).2⟩

/-- C8, as worded, fails for a method other than POST and OPTIONS: the reply to a GET
on the route has status 404 and none of the three CORS headers. -/
theorem C8_counterexample :
    ((echoHandler none).ServeHTTP
        (request "GET" [("Access-Control-Request-Headers", ["X-Token"])] none)).w.status = 404 ∧
    ((echoHandler none).ServeHTTP
        (request "GET" [("Access-Control-Request-Headers", ["X-Token"])] none)).w.wire.Values
        "Access-Control-Allow-Origin" = [] ∧
    ((echoHandler none).ServeHTTP
        (request "GET" [("Access-Control-Request-Headers", ["X-Token"])] none)).w.wire.Values
        "Access-Control-Allow-Headers" = [] ∧
    ((echoHandler none).ServeHTTP
        (request "GET" [("Access-Control-Request-Headers", ["X-Token"])] none)).w.wire.Values
        "Access-Control-Allow-Method" = [] := by
  refine ⟨rfl, by decide, by decide, by decide⟩

/-- C8, amended. Every response to a POST or OPTIONS request on the route that `Run`
registers, after any earlier requests and whatever the outcome, carries
`Access-Control-Allow-Origin` equal to the configured origin, or `*` when that is
empty, `Access-Control-Allow-Headers` equal to the request's
`Access-Control-Request-Headers`, and `Access-Control-Allow-Method: OPTIONS,POST`. -/
theorem C8_cors_headers {σ : Type} (s : server σ) (rs : List http.Request) (r : http.Request)
    (hMethod : r.Method = "POST" ∨ r.Method = "OPTIONS") :
    (((server.Run s).2.after rs).ServeHTTP r).w.wire.Values "Access-Control-Allow-Origin" =
      [if s.config.CORSOrigin = "" then "*" else s.config.CORSOrigin] ∧
    (((server.Run s).2.after rs).ServeHTTP r).w.wire.Values "Access-Control-Allow-Headers" =
      [r.Header.Get "Access-Control-Request-Headers"] ∧
    (((server.Run s).2.after rs).ServeHTTP r).w.wire.Values "Access-Control-Allow-Method" =
      ["OPTIONS,POST"] := by
  have hOrigin : ((server.Run s).2.after rs).CORSOrigin =
      (if s.config.CORSOrigin = "" then "*" else s.config.CORSOrigin) := by
    rw [(after_preserves rs (server.Run s).2).2.1]
    by_cases hc : s.config.CORSOrigin = "" <;> simp [server.Run, processHandler, hc]
  rw [← hOrigin]
  rcases hMethod with hPost | hOpt
  · obtain ⟨base, hw⟩ := post_wire ((server.Run s).2.after rs) r hPost
    rw [hw, (Values_filter_fixed _).2.1, (Values_filter_fixed _).2.2.1,
      (Values_filter_fixed _).2.2.2]
    exact cors_values _ _ _
  · rw [options_served _ r hOpt]
    have hw : ([("Access-Control-Allow-Method", ["OPTIONS,POST"]),
        ("Access-Control-Allow-Headers", [r.Header.Get "Access-Control-Request-Headers"]),
        ("Access-Control-Allow-Origin", [((server.Run s).2.after rs).CORSOrigin])] : Header) =
        Header.Set (Header.Set (Header.Set []
          "Access-Control-Allow-Origin" ((server.Run s).2.after rs).CORSOrigin)
          "Access-Control-Allow-Headers" (r.Header.Get "Access-Control-Request-Headers"))
          "Access-Control-Allow-Method" "OPTIONS,POST" := by
      simp [Header.Set, canon_AllowOrigin, canon_AllowHeaders, canon_AllowMethod]
    simp only [hw]
    exact cors_values _ _ _

/-- Witness of C8 (amended): an OPTIONS request to the echo handler after one POST. -/
theorem C8_cors_headers_witness :
    ((request "OPTIONS" [("Access-Control-Request-Headers", ["X-Token"])] none).Method = "POST" ∨
      (request "OPTIONS" [("Access-Control-Request-Headers", ["X-Token"])] none).Method =
        "OPTIONS") ∧
    ((((server.Run { engine := echoEngine none, config := defaultConfig }).2.after
        [request "POST" [] (textBody "hi")]).ServeHTTP
        (request "OPTIONS" [("Access-Control-Request-Headers", ["X-Token"])] none)).w.wire.Values
        "Access-Control-Allow-Origin" = ["*"]) :=
  ⟨Or.inr rfl,
    (C8_cors_headers { engine := echoEngine none, config := defaultConfig }
      [request "POST" [] (textBody "hi")]
      (request "OPTIONS" [("Access-Control-Request-Headers", ["X-Token"])] none)
      (Or.inr rfl)).1⟩

/-- C9, as worded, fails for OPTIONS: the reply to an OPTIONS request has status 200
and no `Content-Type` header. -/
theorem C9_counterexample :
    ((echoHandler none).ServeHTTP (request "OPTIONS" [] none)).w.status = 200 ∧
    ((echoHandler none).ServeHTTP (request "OPTIONS" [] none)).w.wire.Values "Content-Type" =
      [] := by
  refine ⟨rfl, by decide⟩

/-- C9, amended. Every response to a POST request on the route carries the header
`Content-Type: application/json`. -/
theorem C9_post_content_type {σ : Type} (h : HandlerFunc σ) (r : http.Request)
    (hPost : r.Method = "POST") :
    (h.ServeHTTP r).w.wire.Values "Content-Type" = ["application/json"] := by
  obtain ⟨base, hw⟩ := post_wire h r hPost
  rw [hw, (Values_filter_fixed _).1, Values_Set_of_ne _ _ _ _ (by decide),
    Values_Set_of_ne _ _ _ _ (by decide), Values_Set_of_ne _ _ _ _ (by decide),
    Values_Set_self]

/-- Witness of C9 (amended): a POST with a body that is not JSON. -/
theorem C9_post_content_type_witness :
    (request "POST" [] none).Method = "POST" ∧
    ((echoHandler none).ServeHTTP (request "POST" [] none)).w.wire.Values "Content-Type" =
      ["application/json"] :=
  ⟨rfl, C9_post_content_type (echoHandler none) (request "POST" [] none) rfl⟩

/-- C10. An OPTIONS request gets status 200 and an empty body, `Process` is not
called, the closure is left unchanged, and the outcome is the same for every body
the request may carry. -/
theorem C10_options_ignores_body {σ : Type} (h : HandlerFunc σ) (r : http.Request)
    (hOpt : r.Method = "OPTIONS") :
    (h.ServeHTTP r).w.status = 200 ∧ (h.ServeHTTP r).w.body = [] ∧
    (h.ServeHTTP r).calls = [] ∧ (h.ServeHTTP r).h = h ∧
    ∀ body : Option JSON, h.ServeHTTP { r with Body := body } = h.ServeHTTP r := by
  rw [options_served h r hOpt]
  refine ⟨rfl, rfl, rfl, rfl, fun body => ?_⟩
  rw [options_served h { r with Body := body } hOpt]

/-- Witness of C10: an OPTIONS request that carries a body with a valid text. -/
theorem C10_options_ignores_body_witness :
    (request "OPTIONS" [] (textBody "hello")).Method = "OPTIONS" ∧
    ((echoHandler none).ServeHTTP (request "OPTIONS" [] (textBody "hello"))).w.status = 200 ∧
    ((echoHandler none).ServeHTTP (request "OPTIONS" [] (textBody "hello"))).w.body = [] :=
  ⟨rfl,
    (C10_options_ignores_body (echoHandler none) (request "OPTIONS" [] (textBody "hello"))
      rfl).1,
    (C10_options_ignores_body (echoHandler none) (request "OPTIONS" [] (textBody "hello"))
      rfl).2.1⟩

end Trevor
